import Mathlib

/-!
# Power Play: win detection

A shallow embedding of `src/power-play.js` (`checkRow`, `checkWin`) and the
properties of the specification that concern them.

JavaScript values that occur in a line are numbers or `undefined` (the result
of reading an array past its end), so a cell is an `Option Int`.  Reading a
cell out of a row that does not exist (`grid[y][x]` with `grid[y]` undefined)
throws a `TypeError`; `checkWin` therefore returns an `Option`, `none` being
the thrown error.
-/

namespace PowerPlay

/-! ## Data model -/

/-- A cell as a JavaScript value: `some n` is the number `n`, `none` is `undefined`. -/
abbrev Cell := Option Int

/-- The grid, indexed `[row][col]`; rows are arrays of cells. -/
abbrev Grid := List (List Cell)

/-- The two strings the source reports as `winner`. -/
inductive Winner where
  | gray
  | white
deriving DecidableEq, Repr

/-- The object returned by `checkRow` and `checkWin`:
`{ won: false }` or `{ winner: "gray" | "white", won: true }`. -/
structure WinResult where
  winner : Option Winner
  won : Bool
deriving DecidableEq, Repr

/-- The object `{ won: false }`. -/
def notWon : WinResult := { winner := none, won := false }

/-- The object `{ winner: w, won: true }`. -/
def wonBy (w : Winner) : WinResult := { winner := some w, won := true }

/-- The cell value the source associates with each winner (1 is gray, 2 is white). -/
def playerValue : Winner → Int
  | Winner.gray => 1
  | Winner.white => 2

/-! ## `checkRow` -/

/-- JavaScript `row[x]` for a natural index: `undefined` past the end. -/
def index (row : List Cell) (x : Nat) : Cell := row.getD x none

/-- The inner loop of `check`, `for (let y = x; y <= x + 3; y++)`, run over the
indices it visits: `false` as soon as `row[y] !== type`, `true` otherwise. -/
def fourFrom (row : List Cell) (type : Int) : List Nat → Bool
  | [] => true
  | y :: ys => if index row y ≠ some type then false else fourFrom row type ys

/-- The outer loop of `check`, `for (let x = 0; x < row.length; x++)`, run over
the indices still to visit, with the current value of the variable `winner`. -/
def checkLoop (row : List Cell) (type : Int) : List Nat → Bool → Bool
  | [], winner => winner
  | x :: xs, winner =>
    if index row x = some type then
      if x + 3 < row.length then
        let check_4_pieces_in_a_row := fourFrom row type [x, x + 1, x + 2, x + 3]
        if check_4_pieces_in_a_row then check_4_pieces_in_a_row
        else checkLoop row type xs check_4_pieces_in_a_row
      else checkLoop row type xs winner
    else checkLoop row type xs winner

/-- The closure `check` of `checkRow`. -/
def check (row : List Cell) (type : Int) : Bool :=
  checkLoop row type (List.range row.length) false

/-- The function `checkRow` of the source. -/
def checkRow (row : List Cell) : WinResult :=
  if row.length ≤ 3 then notWon
  else if check row 1 then wonBy Winner.gray
  else if check row 2 then wonBy Winner.white
  else notWon

/-! ## `checkWin` -/

/-- JavaScript `row[x]` for an integer index: `undefined` outside `0 .. length - 1`. -/
def indexInt (row : List Cell) (x : Int) : Cell :=
  if x < 0 then none else index row x.toNat

/-- The inner loop that builds one diagonal.  It runs `n` more times from the
position `(y, x)`; every pass pushes `grid[y][x]` onto `diagonal`, then moves
one row down and `dx` columns sideways.  `grid[y]` undefined makes `grid[y][x]`
throw, which is the result `none`. -/
def walk (grid : Grid) (dx : Int) : Nat → Nat → Int → List Cell → Option (List Cell)
  | 0, _, _, diagonal => some diagonal
  | n + 1, y, x, diagonal =>
    match grid[y]? with
    | none => none
    | some row => walk grid dx n (y + 1) (x + dx) (diagonal ++ [indexInt row x])

/-- One of the six `for (let i = 0; ...; i++)` loops of `checkWin`, run over the
values of `i` still to visit: build line `i`, hand it to `checkRow`, return its
result if it is won; `after` is what the code following the loop returns. -/
def forEachLine (build : Nat → Option (List Cell)) :
    List Nat → Option WinResult → Option WinResult
  | [], after => after
  | i :: is, after =>
    match build i with
    | none => none
    | some line =>
      if (checkRow line).won then some (checkRow line)
      else forEachLine build is after

/-- Row `i`, as the first loop reads it: `grid[i]`. -/
def rowLine (grid : Grid) (i : Nat) : Option (List Cell) := grid[i]?

/-- Column `i`, as the second loop builds it: `grid.map((row) => row[i])`. -/
def columnLine (grid : Grid) (i : Nat) : Option (List Cell) :=
  some (grid.map (fun row => index row i))

/-- Third loop (descending, from the top row): `y = 0`,
`for (let x = i; x < number_of_columns; x++)`, that is `number_of_columns - i`
passes from `(0, i)`, the column growing. -/
def descUpper (grid : Grid) (number_of_columns : Nat) (i : Nat) : Option (List Cell) :=
  walk grid 1 (number_of_columns - i) 0 (i : Int) []

/-- Fourth loop (descending, from the left column): `x = 0`,
`for (let y = 1 + i; y < number_of_rows; y++)`, that is
`number_of_rows - (1 + i)` passes from `(1 + i, 0)`, the column growing. -/
def descLower (grid : Grid) (number_of_rows : Nat) (i : Nat) : Option (List Cell) :=
  walk grid 1 (number_of_rows - (1 + i)) (1 + i) 0 []

/-- Fifth loop (ascending, from the top row): `y = 0`,
`for (let x = number_of_columns - 1 - i; x >= 0; x--)`, that is
`number_of_columns - i` passes from `(0, number_of_columns - 1 - i)`, the
column shrinking. -/
def ascUpper (grid : Grid) (number_of_columns : Nat) (i : Nat) : Option (List Cell) :=
  walk grid (-1) (number_of_columns - i) 0 ((number_of_columns : Int) - 1 - (i : Int)) []

/-- Sixth loop (ascending, from the right column): `x = number_of_columns - 1`,
`for (let y = 1 + i; y < number_of_rows; y++)`, that is
`number_of_rows - (1 + i)` passes from `(1 + i, number_of_columns - 1)`, the
column shrinking (below zero when the rows outnumber the columns). -/
def ascLower (grid : Grid) (number_of_rows number_of_columns : Nat) (i : Nat) :
    Option (List Cell) :=
  walk grid (-1) (number_of_rows - (1 + i)) (1 + i) ((number_of_columns : Int) - 1) []

/-- The function `checkWin` of the source, with the grid it reads as argument.
`grid[0].length` throws on a grid without rows. -/
def checkWin (grid : Grid) : Option WinResult :=
  match grid[0]? with
  | none => none
  | some row0 =>
    let number_of_rows := grid.length
    let number_of_columns := row0.length
    forEachLine (rowLine grid) (List.range number_of_rows) <|
    forEachLine (columnLine grid) (List.range number_of_columns) <|
    forEachLine (descUpper grid number_of_columns) (List.range number_of_columns) <|
    forEachLine (descLower grid number_of_rows) (List.range number_of_columns) <|
    forEachLine (ascUpper grid number_of_columns) (List.range number_of_columns) <|
    forEachLine (ascLower grid number_of_rows number_of_columns)
      (List.range number_of_columns) <|
    some notWon

/-- The cells a walk pushes when every row it visits exists. -/
def walkCells (grid : Grid) (dx : Int) : Nat → Nat → Int → List Cell
  | 0, _, _ => []
  | n + 1, y, x => indexInt (grid.getD y []) x :: walkCells grid dx n (y + 1) (x + dx)

/-- The positions `(y, x)` at which a walk reads `grid[y][x]`, in the order of
the reads, when every row it visits exists. -/
def walkPositions (dx : Int) : Nat → Nat → Int → List (Nat × Int)
  | 0, _, _ => []
  | n + 1, y, x => (y, x) :: walkPositions dx n (y + 1) (x + dx)

/-- The positions read for diagonal `i` of the third loop. -/
def descUpperPositions (number_of_columns : Nat) (i : Nat) : List (Nat × Int) :=
  walkPositions 1 (number_of_columns - i) 0 (i : Int)

/-- The positions read for diagonal `i` of the fourth loop. -/
def descLowerPositions (number_of_rows : Nat) (i : Nat) : List (Nat × Int) :=
  walkPositions 1 (number_of_rows - (1 + i)) (1 + i) 0

/-- The positions read for diagonal `i` of the fifth loop. -/
def ascUpperPositions (number_of_columns : Nat) (i : Nat) : List (Nat × Int) :=
  walkPositions (-1) (number_of_columns - i) 0 ((number_of_columns : Int) - 1 - (i : Int))

/-- The positions read for diagonal `i` of the sixth loop. -/
def ascLowerPositions (number_of_rows number_of_columns : Nat) (i : Nat) :
    List (Nat × Int) :=
  walkPositions (-1) (number_of_rows - (1 + i)) (1 + i) ((number_of_columns : Int) - 1)

/-- A diagonal of one orientation, named by the family that generates it (the
loop from the top row, or the loop from the side column) and its offset `i`. -/
inductive Diagonal where
  | upper (i : Nat)
  | lower (i : Nat)
deriving DecidableEq, Repr

/-- The positions of a descending diagonal, as the third and fourth loops read them. -/
def descPositions (number_of_rows number_of_columns : Nat) : Diagonal → List (Nat × Int)
  | Diagonal.upper i => descUpperPositions number_of_columns i
  | Diagonal.lower i => descLowerPositions number_of_rows i

/-- The positions of an ascending diagonal, as the fifth and sixth loops read them. -/
def ascPositions (number_of_rows number_of_columns : Nat) : Diagonal → List (Nat × Int)
  | Diagonal.upper i => ascUpperPositions number_of_columns i
  | Diagonal.lower i => ascLowerPositions number_of_rows number_of_columns i

/-- Some line of a loop of `checkWin` is built and is a winning line. -/
def LineWins (build : Nat → Option (List Cell)) (is : List Nat) : Prop :=
  ∃ i, i ∈ is ∧ ∃ l, build i = some l ∧ (checkRow l).won = true

/-- The sample grid of the source. -/
def grid : Grid :=
  [ [some 0, some 0, some 0, some 1, some 0, some 0],
    [some 0, some 0, some 1, some 0, some 0, some 0],
    [some 0, some 1, some 0, some 0, some 0, some 0],
    [some 1, some 0, some 0, some 0, some 0, some 0],
    [some 0, some 0, some 0, some 0, some 0, some 0],
    [some 0, some 0, some 0, some 0, some 0, some 0],
    [some 0, some 0, some 0, some 0, some 0, some 0] ]

/-! ## Vocabulary of the specification -/

/-- A line of numbers, as cells. -/
def ofInts (line : List Int) : List Cell := line.map some

/-- Four consecutive cells of the line `row`, starting at index `i`, all hold `p`. -/
def Window (row : List Cell) (p : Int) (i : Nat) : Prop :=
  i + 3 < row.length ∧ ∀ k, k < 4 → row[i + k]? = some (some p)

/-- Some window of `line` holds four `p`. -/
def HasWindow (line : List Cell) (p : Int) : Prop := ∃ i, Window line p i

/-- The in-bounds cell `(r, c)` of the grid holds the number `p`. -/
def Holds (grid : Grid) (p : Int) (r c : Nat) : Prop :=
  ∃ row, grid[r]? = some row ∧ row[c]? = some (some p)

/-- Four in-bounds cells contiguous along a row, from `(r, c)` rightwards, hold `p`. -/
def RowRun (grid : Grid) (p : Int) (r c : Nat) : Prop :=
  ∀ k, k < 4 → Holds grid p r (c + k)

/-- Four in-bounds cells contiguous along a column, from `(r, c)` downwards, hold `p`. -/
def ColumnRun (grid : Grid) (p : Int) (r c : Nat) : Prop :=
  ∀ k, k < 4 → Holds grid p (r + k) c

/-- Four in-bounds cells contiguous along a descending diagonal, from `(r, c)`
down and to the right, hold `p`. -/
def DescRun (grid : Grid) (p : Int) (r c : Nat) : Prop :=
  ∀ k, k < 4 → Holds grid p (r + k) (c + k)

/-- Four in-bounds cells contiguous along an ascending diagonal, from `(r, c + 3)`
down and to the left to `(r + 3, c)`, hold `p`. -/
def AscRun (grid : Grid) (p : Int) (r c : Nat) : Prop :=
  ∀ k, k < 4 → Holds grid p (r + k) (c + 3 - k)

/-- The grid contains a run of four `p` along a row, a column or a diagonal. -/
def HasRun (grid : Grid) (p : Int) : Prop :=
  ∃ r c, RowRun grid p r c ∨ ColumnRun grid p r c ∨ DescRun grid p r c ∨ AscRun grid p r c

/-- Column `i` read top to bottom: `grid[0][i], grid[1][i], ...`. -/
def column (grid : Grid) (i : Nat) : List Cell := grid.map (fun row => index row i)

/-- The grid has `R` rows, each of `C` cells. -/
def Rect (grid : Grid) (R C : Nat) : Prop :=
  grid.length = R ∧ ∀ row, row ∈ grid → row.length = C

/-- The result is a win. -/
def IsWon (o : Option WinResult) : Prop := ∃ w, o = some w ∧ w.won = true

/-- Some two rows of the grid differ in length. -/
def Jagged (grid : Grid) : Prop :=
  ∃ row, row ∈ grid ∧ ∃ row', row' ∈ grid ∧ row.length ≠ row'.length

/-- The value at position `(r, c)`; a position outside the grid holds a value
that matches no player. -/
def valueAt (grid : Grid) (r c : Nat) : Cell :=
  match grid[r]? with
  | some row => (row[c]?).getD none
  | none => none

/-- The line `grid[0][0], grid[1][1], ..., grid[C-1][C-1]`. -/
def mainDiagonal (grid : Grid) (C : Nat) : List Cell :=
  (List.range C).map (fun k => valueAt grid k k)

/-- The descending diagonal of an `R` x `C` grid from `(r, c)`: the cells
`(r, c), (r + 1, c + 1), ...` of the grid. -/
def descendingFrom (grid : Grid) (R C : Nat) (r c : Nat) : List Cell :=
  (List.range (min (R - r) (C - c))).map (fun k => valueAt grid (r + k) (c + k))

/-- The ascending diagonal of an `R` x `C` grid from `(r, c)`: the cells
`(r, c), (r + 1, c - 1), ...` of the grid. -/
def ascendingFrom (grid : Grid) (R : Nat) (r c : Nat) : List Cell :=
  (List.range (min (R - r) (c + 1))).map (fun k => valueAt grid (r + k) (c - k))

/-- The fixed sequence of lines of an `R` x `C` grid: the rows, the columns, the
descending diagonals from the top row, those from the left column, the
ascending diagonals from the top row, those from the right column. -/
def specLines (grid : Grid) (R C : Nat) : List (List Cell) :=
  (List.range R).map (fun r => grid.getD r []) ++
  ((List.range C).map (fun c => column grid c) ++
  ((List.range C).map (fun i => descendingFrom grid R C 0 i) ++
  ((List.range C).map (fun i => descendingFrom grid R C (1 + i) 0) ++
  ((List.range C).map (fun i => ascendingFrom grid R 0 (C - 1 - i)) ++
  (List.range C).map (fun i => ascendingFrom grid R (1 + i) (C - 1))))))

/-- The first Won result of `checkRow` over a sequence of lines, NotWon if none is. -/
def firstWon : List (List Cell) → WinResult
  | [] => notWon
  | l :: ls => if (checkRow l).won then checkRow l else firstWon ls

/-- The `R` x `C` grid whose cells are all neutral. -/
def neutralGrid (R C : Nat) : Grid := List.replicate R (List.replicate C (some 0))

/-! ## Sample inputs -/

/-- The 7 x 6 grid whose cells (0,0), (1,1), (2,2), (3,3) hold 2, neutral elsewhere. -/
def diagonalGrid : Grid :=
  [ [some 2, some 0, some 0, some 0, some 0, some 0],
    [some 0, some 2, some 0, some 0, some 0, some 0],
    [some 0, some 0, some 2, some 0, some 0, some 0],
    [some 0, some 0, some 0, some 2, some 0, some 0],
    [some 0, some 0, some 0, some 0, some 0, some 0],
    [some 0, some 0, some 0, some 0, some 0, some 0],
    [some 0, some 0, some 0, some 0, some 0, some 0] ]

/-- A jagged grid of three rows without any run. -/
def jaggedGrid : Grid :=
  [ [some 0, some 0],
    [some 0],
    [some 0, some 0, some 0] ]

/-- A jagged grid of four rows whose first row holds four 1s. -/
def jaggedWinGrid : Grid :=
  [ [some 1, some 1, some 1, some 1],
    [some 0],
    [some 0, some 0],
    [some 0] ]

/-- A 5 x 5 grid with a white winning row (row 3) and a gray winning column (column 0). -/
def rowAndColumnGrid : Grid :=
  [ [some 1, some 0, some 0, some 0, some 0],
    [some 1, some 0, some 0, some 0, some 0],
    [some 1, some 0, some 0, some 0, some 0],
    [some 1, some 2, some 2, some 2, some 2],
    [some 0, some 0, some 0, some 0, some 0] ]

/-- The 7 x 6 grid whose column 0 holds 1, 1, 1, 1 in rows 0 to 3, neutral elsewhere. -/
def columnZeroGrid : Grid :=
  [ [some 1, some 0, some 0, some 0, some 0, some 0],
    [some 1, some 0, some 0, some 0, some 0, some 0],
    [some 1, some 0, some 0, some 0, some 0, some 0],
    [some 1, some 0, some 0, some 0, some 0, some 0],
    [some 0, some 0, some 0, some 0, some 0, some 0],
    [some 0, some 0, some 0, some 0, some 0, some 0],
    [some 0, some 0, some 0, some 0, some 0, some 0] ]

/-- A 9 x 4 grid whose only run of four is the descending diagonal from `(5, 0)`. -/
def tallGrid : Grid :=
  [ [some 0, some 0, some 0, some 0],
    [some 0, some 0, some 0, some 0],
    [some 0, some 0, some 0, some 0],
    [some 0, some 0, some 0, some 0],
    [some 0, some 0, some 0, some 0],
    [some 1, some 0, some 0, some 0],
    [some 0, some 1, some 0, some 0],
    [some 0, some 0, some 1, some 0],
    [some 0, some 0, some 0, some 1] ]

/-- A 1 x 2 grid of neutral cells. -/
def neutralRow : Grid := [ [some 0, some 0] ]

/-! ## The line scanner -/

theorem index_eq_some (row : List Cell) (y : Nat) (p : Int) :
    index row y = some p ↔ row[y]? = some (some p) := by
  unfold index
  rw [List.getD_eq_getElem?_getD]
  cases h : row[y]? <;> simp

theorem fourFrom_iff (row : List Cell) (type : Int) (ys : List Nat) :
    fourFrom row type ys = true ↔ ∀ y, y ∈ ys → index row y = some type := by
  induction ys with
  | nil => simp [fourFrom]
  | cons y ys ih =>
    by_cases h : index row y = some type
    · simp [fourFrom, h, ih]
    · simp [fourFrom, h]

theorem fourFrom_window (row : List Cell) (type : Int) (x : Nat) (hx : x + 3 < row.length) :
    fourFrom row type [x, x + 1, x + 2, x + 3] = true ↔ Window row type x := by
  rw [fourFrom_iff]
  constructor
  · intro h
    refine ⟨hx, fun k hk => ?_⟩
    rw [← index_eq_some]
    apply h
    interval_cases k <;> simp
  · intro h y hy
    rw [index_eq_some]
    simp only [List.mem_cons, List.mem_singleton, List.not_mem_nil, or_false] at hy
    rcases hy with rfl | rfl | rfl | rfl
    · exact h.2 0 (by omega)
    · exact h.2 1 (by omega)
    · exact h.2 2 (by omega)
    · exact h.2 3 (by omega)

theorem Window.index_start {row : List Cell} {p : Int} {x : Nat} (h : Window row p x) :
    index row x = some p := by
  rw [index_eq_some]
  exact h.2 0 (by omega)

theorem checkLoop_iff (row : List Cell) (type : Int) (xs : List Nat) :
    checkLoop row type xs false = true ↔ ∃ x, x ∈ xs ∧ Window row type x := by
  induction xs with
  | nil => simp [checkLoop]
  | cons x xs ih =>
    unfold checkLoop
    by_cases h1 : index row x = some type
    · by_cases h2 : x + 3 < row.length
      · cases hc : fourFrom row type [x, x + 1, x + 2, x + 3]
        · have hw : ¬ Window row type x := by
            rw [← fourFrom_window row type x h2, hc]; simp
          simp only [h1, h2, if_true, hc, Bool.false_eq_true, if_false, ih, List.mem_cons]
          constructor
          · rintro ⟨y, hy, hwy⟩
            exact ⟨y, Or.inr hy, hwy⟩
          · rintro ⟨y, rfl | hy, hwy⟩
            · exact absurd hwy hw
            · exact ⟨y, hy, hwy⟩
        · have hw : Window row type x := (fourFrom_window row type x h2).1 hc
          simp only [h1, h2, if_true, hc, true_iff]
          exact ⟨x, List.mem_cons_self _ _, hw⟩
      · simp only [h1, h2, if_true, if_false, ih, List.mem_cons]
        constructor
        · rintro ⟨y, hy, hwy⟩
          exact ⟨y, Or.inr hy, hwy⟩
        · rintro ⟨y, rfl | hy, hwy⟩
          · exact absurd hwy.1 h2
          · exact ⟨y, hy, hwy⟩
    · simp only [h1, if_false, ih, List.mem_cons]
      constructor
      · rintro ⟨y, hy, hwy⟩
        exact ⟨y, Or.inr hy, hwy⟩
      · rintro ⟨y, rfl | hy, hwy⟩
        · exact absurd hwy.index_start h1
        · exact ⟨y, hy, hwy⟩

theorem check_iff (row : List Cell) (type : Int) :
    check row type = true ↔ HasWindow row type := by
  unfold check HasWindow
  rw [checkLoop_iff]
  constructor
  · rintro ⟨x, _, hw⟩
    exact ⟨x, hw⟩
  · rintro ⟨x, hw⟩
    exact ⟨x, List.mem_range.2 (by have := hw.1; omega), hw⟩

theorem HasWindow.length {row : List Cell} {p : Int} (h : HasWindow row p) :
    3 < row.length := by
  obtain ⟨i, hi, _⟩ := h
  omega

theorem checkRow_gray_iff (row : List Cell) :
    checkRow row = wonBy Winner.gray ↔ HasWindow row 1 := by
  unfold checkRow
  by_cases hl : row.length ≤ 3
  · have : ¬ HasWindow row 1 := fun h => by have := h.length; omega
    simp [hl, this, notWon, wonBy]
  · by_cases h1 : check row 1 = true
    · simp [hl, h1, (check_iff row 1).1 h1]
    · have : ¬ HasWindow row 1 := fun h => h1 ((check_iff row 1).2 h)
      by_cases h2 : check row 2 = true <;> simp [hl, h1, h2, this, notWon, wonBy]

theorem checkRow_white_iff (row : List Cell) :
    checkRow row = wonBy Winner.white ↔ ¬ HasWindow row 1 ∧ HasWindow row 2 := by
  unfold checkRow
  by_cases hl : row.length ≤ 3
  · have : ¬ HasWindow row 2 := fun h => by have := h.length; omega
    simp [hl, this, notWon, wonBy]
  · by_cases h1 : check row 1 = true
    · simp [hl, h1, (check_iff row 1).1 h1, wonBy]
    · have n1 : ¬ HasWindow row 1 := fun h => h1 ((check_iff row 1).2 h)
      by_cases h2 : check row 2 = true
      · simp [hl, h1, h2, n1, (check_iff row 2).1 h2]
      · have n2 : ¬ HasWindow row 2 := fun h => h2 ((check_iff row 2).2 h)
        simp [hl, h1, h2, n1, n2, notWon, wonBy]

theorem checkRow_notWon_iff (row : List Cell) :
    checkRow row = notWon ↔ ¬ HasWindow row 1 ∧ ¬ HasWindow row 2 := by
  unfold checkRow
  by_cases hl : row.length ≤ 3
  · have n1 : ¬ HasWindow row 1 := fun h => by have := h.length; omega
    have n2 : ¬ HasWindow row 2 := fun h => by have := h.length; omega
    simp [hl, n1, n2]
  · by_cases h1 : check row 1 = true
    · simp [hl, h1, (check_iff row 1).1 h1, notWon, wonBy]
    · have n1 : ¬ HasWindow row 1 := fun h => h1 ((check_iff row 1).2 h)
      by_cases h2 : check row 2 = true
      · simp [hl, h1, h2, n1, (check_iff row 2).1 h2, notWon, wonBy]
      · have n2 : ¬ HasWindow row 2 := fun h => h2 ((check_iff row 2).2 h)
        simp [hl, h1, h2, n1, n2]

/-- The three possible results of `checkRow`. -/
theorem checkRow_cases (row : List Cell) :
    checkRow row = wonBy Winner.gray ∨ checkRow row = wonBy Winner.white ∨
      checkRow row = notWon := by
  unfold checkRow
  split_ifs <;> simp

/-- A won result of `checkRow` names a winner whose value fills a window. -/
theorem checkRow_won (row : List Cell) (h : (checkRow row).won = true) :
    ∃ w, checkRow row = wonBy w ∧ HasWindow row (playerValue w) := by
  rcases checkRow_cases row with hg | hw | hn
  · exact ⟨Winner.gray, hg, (checkRow_gray_iff row).1 hg⟩
  · exact ⟨Winner.white, hw, ((checkRow_white_iff row).1 hw).2⟩
  · rw [hn] at h; simp [notWon] at h

/-- A window of 1s or of 2s makes `checkRow` report a win. -/
theorem checkRow_won_of_window (row : List Cell) (p : Int) (hp : p = 1 ∨ p = 2)
    (h : HasWindow row p) : (checkRow row).won = true := by
  rcases checkRow_cases row with hg | hw | hn
  · rw [hg]; rfl
  · rw [hw]; rfl
  · have := (checkRow_notWon_iff row).1 hn
    rcases hp with rfl | rfl
    · exact absurd h this.1
    · exact absurd h this.2

/-! ## The loops of `checkWin` -/

theorem forEachLine_skip (build : Nat → Option (List Cell)) (is : List Nat)
    (after : Option WinResult)
    (h : ∀ i, i ∈ is → ∃ l, build i = some l ∧ (checkRow l).won = false) :
    forEachLine build is after = after := by
  induction is with
  | nil => rfl
  | cons i is ih =>
    obtain ⟨l, hl, hw⟩ := h i (List.mem_cons_self _ _)
    simp only [forEachLine, hl, hw, Bool.false_eq_true, if_false]
    exact ih (fun j hj => h j (List.mem_cons_of_mem _ hj))

theorem forEachLine_first (build : Nat → Option (List Cell)) (after : Option WinResult)
    (i : Nat) (l : List Cell) (hl : build i = some l) (hw : (checkRow l).won = true) :
    ∀ (n s : Nat), s ≤ i → i < s + n →
      (∀ j, s ≤ j → j < i → ∃ lj, build j = some lj ∧ (checkRow lj).won = false) →
      forEachLine build (List.range' s n) after = some (checkRow l) := by
  intro n
  induction n with
  | zero => intro s h1 h2; omega
  | succ n ih =>
    intro s h1 h2 hlow
    rw [List.range'_succ]
    by_cases hs : s = i
    · subst hs
      simp [forEachLine, hl, hw]
    · obtain ⟨lj, hlj, hwj⟩ := hlow s (le_refl _) (by omega)
      simp only [forEachLine, hlj, hwj, Bool.false_eq_true, if_false]
      exact ih (s + 1) (by omega) (by omega) (fun j hj1 hj2 => hlow j (by omega) hj2)

theorem forEachLine_sound (build : Nat → Option (List Cell)) (is : List Nat)
    (after : Option WinResult) (w : WinResult)
    (h : forEachLine build is after = some w) :
    (∃ i, i ∈ is ∧ ∃ l, build i = some l ∧ checkRow l = w) ∨ after = some w := by
  induction is with
  | nil => exact Or.inr h
  | cons i is ih =>
    unfold forEachLine at h
    cases hb : build i with
    | none => simp [hb] at h
    | some l =>
      simp only [hb] at h
      by_cases hc : (checkRow l).won = true
      · simp only [hc, if_true, Option.some.injEq] at h
        exact Or.inl ⟨i, List.mem_cons_self _ _, l, hb, h⟩
      · simp only [hc, if_false] at h
        rcases ih h with ⟨j, hj, lj, hlj, hwj⟩ | h'
        · exact Or.inl ⟨j, List.mem_cons_of_mem _ hj, lj, hlj, hwj⟩
        · exact Or.inr h'

theorem forEachLine_isWon (build : Nat → Option (List Cell)) (is : List Nat)
    (after : Option WinResult) (hb : ∀ i, i ∈ is → ∃ l, build i = some l) :
    IsWon (forEachLine build is after) ↔ LineWins build is ∨ IsWon after := by
  induction is with
  | nil => simp [forEachLine, LineWins]
  | cons i is ih =>
    obtain ⟨l, hl⟩ := hb i (List.mem_cons_self _ _)
    have ih' := ih (fun j hj => hb j (List.mem_cons_of_mem _ hj))
    unfold forEachLine
    simp only [hl]
    by_cases hc : (checkRow l).won = true
    · simp only [hc, if_true]
      constructor
      · intro _
        exact Or.inl ⟨i, List.mem_cons_self _ _, l, hl, hc⟩
      · intro _
        exact ⟨checkRow l, rfl, hc⟩
    · simp only [hc, Bool.false_eq_true, if_false, ih']
      constructor
      · rintro (⟨j, hj, lj, hlj, hwj⟩ | h)
        · exact Or.inl ⟨j, List.mem_cons_of_mem _ hj, lj, hlj, hwj⟩
        · exact Or.inr h
      · rintro (⟨j, hj, lj, hlj, hwj⟩ | h)
        · rcases List.mem_cons.1 hj with rfl | hj'
          · rw [hl] at hlj
            cases hlj
            exact absurd hwj hc
          · exact Or.inl ⟨j, hj', lj, hlj, hwj⟩
        · exact Or.inr h

theorem forEachLine_isSome (build : Nat → Option (List Cell)) (is : List Nat)
    (after : Option WinResult) (hb : ∀ i, i ∈ is → ∃ l, build i = some l)
    (ha : after.isSome = true) : (forEachLine build is after).isSome = true := by
  induction is with
  | nil => exact ha
  | cons i is ih =>
    obtain ⟨l, hl⟩ := hb i (List.mem_cons_self _ _)
    unfold forEachLine
    simp only [hl]
    split_ifs
    · rfl
    · exact ih (fun j hj => hb j (List.mem_cons_of_mem _ hj))

theorem IsWon.isSome {o : Option WinResult} (h : IsWon o) : o.isSome = true := by
  obtain ⟨w, rfl, _⟩ := h
  rfl

theorem not_isWon_notWon : ¬ IsWon (some notWon) := by
  rintro ⟨w, hw, h⟩
  cases hw
  simp [notWon] at h

/-! ## Building a diagonal -/

theorem walk_eq (grid : Grid) (dx : Int) (n : Nat) :
    ∀ (y : Nat) (x : Int) (acc : List Cell),
      walk grid dx n y x acc =
        if n = 0 ∨ y + n ≤ grid.length then some (acc ++ walkCells grid dx n y x) else none := by
  induction n with
  | zero => intro y x acc; simp [walk, walkCells]
  | succ n ih =>
    intro y x acc
    unfold walk
    cases hy : grid[y]? with
    | none =>
      have : grid.length ≤ y := List.getElem?_eq_none_iff.1 hy
      have hc : ¬ (n + 1 = 0 ∨ y + (n + 1) ≤ grid.length) := by omega
      simp only [hc, if_false]
    | some row =>
      have hlt : y < grid.length := (List.getElem?_eq_some_iff.1 hy).1
      have hrow : grid.getD y [] = row := by
        rw [List.getD_eq_getElem?_getD, hy]; rfl
      simp only [ih, walkCells, hrow]
      by_cases hc : n = 0 ∨ y + 1 + n ≤ grid.length
      · have hc' : n + 1 = 0 ∨ y + (n + 1) ≤ grid.length := by omega
        rw [if_pos hc, if_pos hc']
        simp
      · have hc' : ¬ (n + 1 = 0 ∨ y + (n + 1) ≤ grid.length) := by omega
        rw [if_neg hc, if_neg hc']

theorem walkCells_length (grid : Grid) (dx : Int) (n : Nat) :
    ∀ (y : Nat) (x : Int), (walkCells grid dx n y x).length = n := by
  induction n with
  | zero => intro y x; rfl
  | succ n ih => intro y x; simp [walkCells, ih]

theorem walkCells_getElem? (grid : Grid) (dx : Int) (n : Nat) :
    ∀ (y : Nat) (x : Int) (k : Nat), k < n →
      (walkCells grid dx n y x)[k]? = some (indexInt (grid.getD (y + k) []) (x + dx * k)) := by
  induction n with
  | zero => intro y x k hk; omega
  | succ n ih =>
    intro y x k hk
    cases k with
    | zero => simp [walkCells]
    | succ k =>
      simp only [walkCells, List.getElem?_cons_succ]
      rw [ih (y + 1) (x + dx) k (by omega)]
      have e1 : y + 1 + k = y + (k + 1) := by omega
      have e2 : x + dx + dx * (k : Int) = x + dx * ((k + 1 : Nat) : Int) := by
        push_cast; ring
      rw [e1, e2]

theorem indexInt_eq_some (row : List Cell) (z : Int) (p : Int) :
    indexInt row z = some p ↔ 0 ≤ z ∧ row[z.toNat]? = some (some p) := by
  unfold indexInt
  by_cases hz : z < 0
  · simp only [hz, if_true]
    constructor
    · intro h; cases h
    · intro h; omega
  · simp only [hz, if_false, index_eq_some]
    constructor
    · intro h; exact ⟨by omega, h⟩
    · intro h; exact h.2

theorem getD_holds (grid : Grid) (p : Int) (r c : Nat) :
    (grid.getD r [])[c]? = some (some p) ↔ Holds grid p r c := by
  unfold Holds
  rw [List.getD_eq_getElem?_getD]
  cases h : grid[r]? with
  | none => simp
  | some row => simp

/-- A cell of a built diagonal that holds a number is an in-bounds cell of the grid. -/
theorem walkCell_holds (grid : Grid) (p : Int) (r : Nat) (z : Int) :
    indexInt (grid.getD r []) z = some p ↔ 0 ≤ z ∧ Holds grid p r z.toNat := by
  rw [indexInt_eq_some, getD_holds]

theorem walk_some (grid : Grid) (dx : Int) (n y : Nat) (x : Int) (l : List Cell)
    (h : walk grid dx n y x [] = some l) : l = walkCells grid dx n y x := by
  rw [walk_eq] at h
  split_ifs at h
  simpa using h.symm

theorem walk_built (grid : Grid) (dx : Int) (n y : Nat) (x : Int)
    (h : n = 0 ∨ y + n ≤ grid.length) :
    walk grid dx n y x [] = some (walkCells grid dx n y x) := by
  rw [walk_eq, if_pos h]
  simp

theorem walk_throws (grid : Grid) (dx : Int) (n y : Nat) (x : Int)
    (h0 : n ≠ 0) (h : grid.length < y + n) : walk grid dx n y x [] = none := by
  rw [walk_eq, if_neg (by omega)]

/-- The windows of a built diagonal are the runs of in-bounds cells along it. -/
theorem window_walkCells (grid : Grid) (dx : Int) (n y : Nat) (x : Int) (p : Int) (j : Nat) :
    Window (walkCells grid dx n y x) p j ↔
      j + 3 < n ∧ ∀ k, k < 4 →
        0 ≤ x + dx * ((j + k : Nat) : Int) ∧
          Holds grid p (y + (j + k)) (x + dx * ((j + k : Nat) : Int)).toNat := by
  unfold Window
  rw [walkCells_length]
  constructor
  · rintro ⟨hj, h⟩
    refine ⟨hj, fun k hk => ?_⟩
    have h1 := h k hk
    rw [walkCells_getElem? grid dx n y x (j + k) (by omega)] at h1
    exact (walkCell_holds grid p _ _).1 (Option.some.inj h1)
  · rintro ⟨hj, h⟩
    refine ⟨hj, fun k hk => ?_⟩
    rw [walkCells_getElem? grid dx n y x (j + k) (by omega)]
    exact congrArg some ((walkCell_holds grid p _ _).2 (h k hk))

theorem Holds.bounds {grid : Grid} {R C : Nat} {p : Int} {r c : Nat}
    (hrect : Rect grid R C) (h : Holds grid p r c) : r < R ∧ c < C := by
  obtain ⟨row, hr, hc⟩ := h
  have h1 := List.getElem?_eq_some_iff.1 hr
  have h2 := List.getElem?_eq_some_iff.1 hc
  obtain ⟨hr1, hr2⟩ := h1
  have hmem : row ∈ grid := by rw [← hr2]; exact List.getElem_mem _
  have := hrect.2 row hmem
  have := hrect.1
  have := h2.1
  omega

/-! ## Soundness: a winning line is a run of the grid -/

theorem rowLine_run (grid : Grid) (i : Nat) (l : List Cell) (p : Int)
    (h : rowLine grid i = some l) (hw : HasWindow l p) : HasRun grid p := by
  obtain ⟨j, _, hk⟩ := hw
  exact ⟨i, j, Or.inl (fun k hk4 => ⟨l, h, hk k hk4⟩)⟩

theorem columnLine_run (grid : Grid) (i : Nat) (l : List Cell) (p : Int)
    (h : columnLine grid i = some l) (hw : HasWindow l p) : HasRun grid p := by
  obtain ⟨j, _, hk⟩ := hw
  refine ⟨j, i, Or.inr (Or.inl (fun k hk4 => ?_))⟩
  have h1 := hk k hk4
  unfold columnLine at h
  cases h
  rw [List.getElem?_map] at h1
  cases hg : grid[j + k]? with
  | none => rw [hg] at h1; cases h1
  | some row =>
    rw [hg] at h1
    exact ⟨row, hg, (index_eq_some row i p).1 (Option.some.inj h1)⟩

theorem walk_desc_run (grid : Grid) (n y x0 : Nat) (l : List Cell) (p : Int)
    (h : walk grid 1 n y (x0 : Int) [] = some l) (hw : HasWindow l p) : HasRun grid p := by
  obtain ⟨j, hwin⟩ := hw
  rw [walk_some grid 1 n y x0 l h, window_walkCells] at hwin
  refine ⟨y + j, x0 + j, Or.inr (Or.inr (Or.inl (fun k hk => ?_)))⟩
  have h1 := (hwin.2 k hk).2
  have e1 : ((x0 : Int) + 1 * ((j + k : Nat) : Int)).toNat = x0 + j + k := by omega
  have e2 : y + (j + k) = y + j + k := by omega
  rw [e1, e2] at h1
  exact h1

theorem walk_asc_run (grid : Grid) (n y : Nat) (x : Int) (l : List Cell) (p : Int)
    (h : walk grid (-1) n y x [] = some l) (hw : HasWindow l p) : HasRun grid p := by
  obtain ⟨j, hwin⟩ := hw
  rw [walk_some grid (-1) n y x l h, window_walkCells] at hwin
  have h3 := (hwin.2 3 (by omega)).1
  refine ⟨y + j, (x + -1 * ((j + 3 : Nat) : Int)).toNat,
    Or.inr (Or.inr (Or.inr (fun k hk => ?_)))⟩
  have h1 := (hwin.2 k hk).2
  have e1 : (x + -1 * ((j + k : Nat) : Int)).toNat =
      (x + -1 * ((j + 3 : Nat) : Int)).toNat + 3 - k := by omega
  have e2 : y + (j + k) = y + j + k := by omega
  rw [e1, e2] at h1
  exact h1

/-- Whatever the grid, a won result of `checkWin` names a player with a run of four. -/
theorem checkWin_sound (grid : Grid) (w : WinResult) (h : checkWin grid = some w)
    (hw : w.won = true) : ∃ v, w = wonBy v ∧ HasRun grid (playerValue v) := by
  unfold checkWin at h
  cases h0 : grid[0]? with
  | none => simp [h0] at h
  | some row0 =>
    simp only [h0] at h
    have key : ∀ l, checkRow l = w → ∃ v, w = wonBy v ∧ HasWindow l (playerValue v) := by
      intro l hl
      obtain ⟨v, hv, hwin⟩ := checkRow_won l (by rw [hl]; exact hw)
      exact ⟨v, by rw [← hl, hv], hwin⟩
    rcases forEachLine_sound _ _ _ _ h with ⟨i, _, l, hb, hl⟩ | h
    · obtain ⟨v, hv, hwin⟩ := key l hl
      exact ⟨v, hv, rowLine_run grid i l _ hb hwin⟩
    rcases forEachLine_sound _ _ _ _ h with ⟨i, _, l, hb, hl⟩ | h
    · obtain ⟨v, hv, hwin⟩ := key l hl
      exact ⟨v, hv, columnLine_run grid i l _ hb hwin⟩
    rcases forEachLine_sound _ _ _ _ h with ⟨i, _, l, hb, hl⟩ | h
    · obtain ⟨v, hv, hwin⟩ := key l hl
      exact ⟨v, hv, walk_desc_run grid _ _ i l _ hb hwin⟩
    rcases forEachLine_sound _ _ _ _ h with ⟨i, _, l, hb, hl⟩ | h
    · obtain ⟨v, hv, hwin⟩ := key l hl
      exact ⟨v, hv, walk_desc_run grid _ _ 0 l _ hb hwin⟩
    rcases forEachLine_sound _ _ _ _ h with ⟨i, _, l, hb, hl⟩ | h
    · obtain ⟨v, hv, hwin⟩ := key l hl
      exact ⟨v, hv, walk_asc_run grid _ _ _ l _ hb hwin⟩
    rcases forEachLine_sound _ _ _ _ h with ⟨i, _, l, hb, hl⟩ | h
    · obtain ⟨v, hv, hwin⟩ := key l hl
      exact ⟨v, hv, walk_asc_run grid _ _ _ l _ hb hwin⟩
    · cases h
      simp [notWon] at hw

/-! ## Which lines are built -/

theorem checkWin_eq (grid : Grid) (R C : Nat) (hrect : Rect grid R C) (hR : 0 < R) :
    checkWin grid =
      (forEachLine (rowLine grid) (List.range R) <|
       forEachLine (columnLine grid) (List.range C) <|
       forEachLine (descUpper grid C) (List.range C) <|
       forEachLine (descLower grid R) (List.range C) <|
       forEachLine (ascUpper grid C) (List.range C) <|
       forEachLine (ascLower grid R C) (List.range C) <|
       some notWon) := by
  obtain ⟨hlen, hrows⟩ := hrect
  unfold checkWin
  cases grid with
  | nil => simp at hlen; omega
  | cons row0 rest =>
    have h0 : row0.length = C := hrows row0 (List.mem_cons_self _ _)
    simp only [List.getElem?_cons_zero, h0, hlen]

theorem rowLine_built (grid : Grid) (i : Nat) (hi : i ∈ List.range grid.length) :
    ∃ l, rowLine grid i = some l := by
  have hi' : i < grid.length := List.mem_range.1 hi
  exact ⟨grid[i], List.getElem?_eq_getElem hi'⟩

theorem columnLine_built (grid : Grid) (i : Nat) : ∃ l, columnLine grid i = some l :=
  ⟨_, rfl⟩

theorem descUpper_built (grid : Grid) (C i : Nat) (h : C ≤ grid.length) :
    descUpper grid C i = some (walkCells grid 1 (C - i) 0 (i : Int)) :=
  walk_built grid 1 _ _ _ (by omega)

theorem descLower_built (grid : Grid) (i : Nat) :
    descLower grid grid.length i =
      some (walkCells grid 1 (grid.length - (1 + i)) (1 + i) 0) :=
  walk_built grid 1 _ _ _ (by omega)

theorem ascUpper_built (grid : Grid) (C i : Nat) (h : C ≤ grid.length) :
    ascUpper grid C i =
      some (walkCells grid (-1) (C - i) 0 ((C : Int) - 1 - (i : Int))) :=
  walk_built grid (-1) _ _ _ (by omega)

theorem ascLower_built (grid : Grid) (C i : Nat) :
    ascLower grid grid.length C i =
      some (walkCells grid (-1) (grid.length - (1 + i)) (1 + i) ((C : Int) - 1)) :=
  walk_built grid (-1) _ _ _ (by omega)

/-- With at least as many rows as columns every line is built, and `checkWin`
reports a win exactly when one of the lines it builds is a winning line. -/
theorem checkWin_isWon_iff (grid : Grid) (R C : Nat) (hrect : Rect grid R C)
    (hR : 0 < R) (hCR : C ≤ R) :
    IsWon (checkWin grid) ↔
      LineWins (rowLine grid) (List.range R) ∨
      LineWins (columnLine grid) (List.range C) ∨
      LineWins (descUpper grid C) (List.range C) ∨
      LineWins (descLower grid R) (List.range C) ∨
      LineWins (ascUpper grid C) (List.range C) ∨
      LineWins (ascLower grid R C) (List.range C) := by
  have hlen : grid.length = R := hrect.1
  rw [checkWin_eq grid R C hrect hR]
  rw [forEachLine_isWon _ _ _ (fun i hi => rowLine_built grid i (by rw [hlen]; exact hi))]
  rw [forEachLine_isWon _ _ _ (fun i _ => columnLine_built grid i)]
  rw [forEachLine_isWon _ _ _ (fun i _ => ⟨_, descUpper_built grid C i (by omega)⟩)]
  rw [forEachLine_isWon _ _ _ (fun i _ => ⟨_, by rw [← hlen]; exact descLower_built grid i⟩)]
  rw [forEachLine_isWon _ _ _ (fun i _ => ⟨_, ascUpper_built grid C i (by omega)⟩)]
  rw [forEachLine_isWon _ _ _ (fun i _ => ⟨_, by rw [← hlen]; exact ascLower_built grid C i⟩)]
  simp only [not_isWon_notWon, or_false]

/-- With at least one row and at least as many rows as columns, `checkWin` returns. -/
theorem checkWin_returns (grid : Grid) (R C : Nat) (hrect : Rect grid R C)
    (hR : 0 < R) (hCR : C ≤ R) : (checkWin grid).isSome = true := by
  have hlen : grid.length = R := hrect.1
  rw [checkWin_eq grid R C hrect hR]
  refine forEachLine_isSome _ _ _
    (fun i hi => rowLine_built grid i (by rw [hlen]; exact hi)) ?_
  refine forEachLine_isSome _ _ _ (fun i _ => columnLine_built grid i) ?_
  refine forEachLine_isSome _ _ _ (fun i _ => ⟨_, descUpper_built grid C i (by omega)⟩) ?_
  refine forEachLine_isSome _ _ _
    (fun i _ => ⟨_, by rw [← hlen]; exact descLower_built grid i⟩) ?_
  refine forEachLine_isSome _ _ _ (fun i _ => ⟨_, ascUpper_built grid C i (by omega)⟩) ?_
  exact forEachLine_isSome _ _ _
    (fun i _ => ⟨_, by rw [← hlen]; exact ascLower_built grid C i⟩) rfl

/-! ## Completeness: which runs lie on a line that is built -/

theorem rowRun_window (grid : Grid) (p : Int) (r c : Nat) (h : RowRun grid p r c) :
    ∃ l, rowLine grid r = some l ∧ HasWindow l p := by
  obtain ⟨row, hr, h3⟩ := h 3 (by omega)
  refine ⟨row, hr, c, ?_, fun k hk => ?_⟩
  · have := (List.getElem?_eq_some_iff.1 h3).1
    omega
  · obtain ⟨row', hr', hk'⟩ := h k hk
    rw [hr] at hr'
    cases hr'
    exact hk'

theorem columnRun_window (grid : Grid) (p : Int) (r c : Nat) (h : ColumnRun grid p r c) :
    HasWindow (grid.map (fun row => index row c)) p := by
  refine ⟨r, ?_, fun k hk => ?_⟩
  · obtain ⟨row, hr, _⟩ := h 3 (by omega)
    have := (List.getElem?_eq_some_iff.1 hr).1
    simp only [List.length_map]
    omega
  · obtain ⟨row, hr, hc⟩ := h k hk
    rw [List.getElem?_map, hr]
    exact congrArg some ((index_eq_some row c p).2 hc)

theorem rowRun_wins (grid : Grid) (R : Nat) (hlen : grid.length = R) (p : Int)
    (hp : p = 1 ∨ p = 2) (r c : Nat) (h : RowRun grid p r c) :
    LineWins (rowLine grid) (List.range R) := by
  obtain ⟨l, hl, hw⟩ := rowRun_window grid p r c h
  have hr : r < grid.length := (List.getElem?_eq_some_iff.1 hl).1
  exact ⟨r, List.mem_range.2 (by omega), l, hl, checkRow_won_of_window l p hp hw⟩

theorem columnRun_wins (grid : Grid) (R C : Nat) (hrect : Rect grid R C) (p : Int)
    (hp : p = 1 ∨ p = 2) (r c : Nat) (h : ColumnRun grid p r c) :
    LineWins (columnLine grid) (List.range C) := by
  have hb := (h 0 (by omega)).bounds hrect
  exact ⟨c, List.mem_range.2 hb.2, _, rfl,
    checkRow_won_of_window _ p hp (columnRun_window grid p r c h)⟩

theorem descRun_wins (grid : Grid) (R C : Nat) (hrect : Rect grid R C) (hCR : C ≤ R)
    (hRC : R ≤ C + 4) (p : Int) (hp : p = 1 ∨ p = 2) (r c : Nat) (h : DescRun grid p r c) :
    LineWins (descUpper grid C) (List.range C) ∨
      LineWins (descLower grid R) (List.range C) := by
  have hlen : grid.length = R := hrect.1
  have hb := (h 3 (by omega)).bounds hrect
  by_cases hrc : r ≤ c
  · left
    refine ⟨c - r, List.mem_range.2 (by omega), _, descUpper_built grid C (c - r) (by omega),
      checkRow_won_of_window _ p hp ⟨r, ?_⟩⟩
    rw [window_walkCells]
    refine ⟨by omega, fun k hk => ⟨by omega, ?_⟩⟩
    have e1 : (((c - r : Nat) : Int) + 1 * ((r + k : Nat) : Int)).toNat = c + k := by omega
    have e2 : 0 + (r + k) = r + k := by omega
    rw [e1, e2]
    exact h k hk
  · right
    refine ⟨r - c - 1, List.mem_range.2 (by omega), _,
      by rw [← hlen]; exact descLower_built grid (r - c - 1),
      checkRow_won_of_window _ p hp ⟨c, ?_⟩⟩
    rw [window_walkCells]
    refine ⟨by omega, fun k hk => ⟨by omega, ?_⟩⟩
    have e1 : ((0 : Int) + 1 * ((c + k : Nat) : Int)).toNat = c + k := by omega
    have e2 : 1 + (r - c - 1) + (c + k) = r + k := by omega
    rw [e1, e2]
    exact h k hk

theorem ascRun_wins (grid : Grid) (R C : Nat) (hrect : Rect grid R C) (hCR : C ≤ R)
    (hRC : R ≤ C + 4) (p : Int) (hp : p = 1 ∨ p = 2) (r c : Nat) (h : AscRun grid p r c) :
    LineWins (ascUpper grid C) (List.range C) ∨
      LineWins (ascLower grid R C) (List.range C) := by
  have hlen : grid.length = R := hrect.1
  have hb0 := (h 0 (by omega)).bounds hrect
  have hb3 := (h 3 (by omega)).bounds hrect
  by_cases hrc : r + c + 3 < C
  · left
    refine ⟨C - 1 - (r + c + 3), List.mem_range.2 (by omega), _,
      ascUpper_built grid C _ (by omega), checkRow_won_of_window _ p hp ⟨r, ?_⟩⟩
    rw [window_walkCells]
    refine ⟨by omega, fun k hk => ⟨by omega, ?_⟩⟩
    have e1 : ((C : Int) - 1 - ((C - 1 - (r + c + 3) : Nat) : Int) +
        -1 * ((r + k : Nat) : Int)).toNat = c + 3 - k := by omega
    have e2 : 0 + (r + k) = r + k := by omega
    rw [e1, e2]
    exact h k hk
  · right
    refine ⟨r + c + 3 - C, List.mem_range.2 (by omega), _,
      by rw [← hlen]; exact ascLower_built grid C _,
      checkRow_won_of_window _ p hp ⟨C - c - 4, ?_⟩⟩
    rw [window_walkCells]
    refine ⟨by omega, fun k hk => ⟨by omega, ?_⟩⟩
    have e1 : ((C : Int) - 1 + -1 * ((C - c - 4 + k : Nat) : Int)).toNat = c + 3 - k := by
      omega
    have e2 : 1 + (r + c + 3 - C) + (C - c - 4 + k) = r + k := by omega
    rw [e1, e2]
    exact h k hk

/-- With `C ≤ R ≤ C + 4` every run of four of a player lies on a line that is built. -/
theorem checkWin_complete (grid : Grid) (R C : Nat) (hrect : Rect grid R C)
    (hCR : C ≤ R) (hRC : R ≤ C + 4) (p : Int) (hp : p = 1 ∨ p = 2)
    (h : HasRun grid p) : IsWon (checkWin grid) := by
  obtain ⟨r, c, hrun⟩ := h
  have hR : 0 < R := by
    have hcell : ∃ r' c', Holds grid p r' c' := by
      rcases hrun with h | h | h | h
      · exact ⟨_, _, h 0 (by omega)⟩
      · exact ⟨_, _, h 0 (by omega)⟩
      · exact ⟨_, _, h 0 (by omega)⟩
      · exact ⟨_, _, h 0 (by omega)⟩
    obtain ⟨r', c', hc⟩ := hcell
    have := hc.bounds hrect
    omega
  rw [checkWin_isWon_iff grid R C hrect hR hCR]
  rcases hrun with h | h | h | h
  · exact Or.inl (rowRun_wins grid R hrect.1 p hp r c h)
  · exact Or.inr (Or.inl (columnRun_wins grid R C hrect p hp r c h))
  · rcases descRun_wins grid R C hrect hCR hRC p hp r c h with h' | h'
    · exact Or.inr (Or.inr (Or.inl h'))
    · exact Or.inr (Or.inr (Or.inr (Or.inl h')))
  · rcases ascRun_wins grid R C hrect hCR hRC p hp r c h with h' | h'
    · exact Or.inr (Or.inr (Or.inr (Or.inr (Or.inl h'))))
    · exact Or.inr (Or.inr (Or.inr (Or.inr (Or.inr h'))))

/-- Every result of `checkWin` is `{ won: false }` or `{ winner, won: true }`. -/
theorem checkWin_shape (grid : Grid) (w : WinResult) (h : checkWin grid = some w) :
    w = notWon ∨ ∃ v, w = wonBy v := by
  have key : ∀ l, checkRow l = w → w = notWon ∨ ∃ v, w = wonBy v := by
    intro l hl
    rcases checkRow_cases l with h1 | h1 | h1
    · exact Or.inr ⟨_, by rw [← hl, h1]⟩
    · exact Or.inr ⟨_, by rw [← hl, h1]⟩
    · exact Or.inl (by rw [← hl, h1])
  unfold checkWin at h
  cases h0 : grid[0]? with
  | none => simp [h0] at h
  | some row0 =>
    simp only [h0] at h
    rcases forEachLine_sound _ _ _ _ h with ⟨_, _, l, _, hl⟩ | h
    · exact key l hl
    rcases forEachLine_sound _ _ _ _ h with ⟨_, _, l, _, hl⟩ | h
    · exact key l hl
    rcases forEachLine_sound _ _ _ _ h with ⟨_, _, l, _, hl⟩ | h
    · exact key l hl
    rcases forEachLine_sound _ _ _ _ h with ⟨_, _, l, _, hl⟩ | h
    · exact key l hl
    rcases forEachLine_sound _ _ _ _ h with ⟨_, _, l, _, hl⟩ | h
    · exact key l hl
    rcases forEachLine_sound _ _ _ _ h with ⟨_, _, l, _, hl⟩ | h
    · exact key l hl
    · cases h
      exact Or.inl rfl

theorem rect_mem_of_getElem? {grid : Grid} {i : Nat} {row : List Cell}
    (h : grid[i]? = some row) : row ∈ grid := by
  obtain ⟨hi, rfl⟩ := List.getElem?_eq_some_iff.1 h
  exact List.getElem_mem _

/-- When no row is a winning line the loop over the rows falls through. -/
theorem rows_skip (grid : Grid) (after : Option WinResult)
    (hrows : ∀ row, row ∈ grid → (checkRow row).won = false) :
    forEachLine (rowLine grid) (List.range grid.length) after = after := by
  apply forEachLine_skip
  intro i hi
  obtain ⟨l, hl⟩ := rowLine_built grid i hi
  exact ⟨l, hl, hrows l (rect_mem_of_getElem? hl)⟩

/-- When no column is a winning line the loop over the columns falls through. -/
theorem columns_skip (grid : Grid) (C : Nat) (after : Option WinResult)
    (hcols : ∀ i, i < C → (checkRow (column grid i)).won = false) :
    forEachLine (columnLine grid) (List.range C) after = after := by
  apply forEachLine_skip
  intro i hi
  exact ⟨_, rfl, hcols i (List.mem_range.1 hi)⟩

theorem bool_not_true {b : Bool} (h : ¬ b = true) : b = false := by
  cases b
  · rfl
  · exact absurd rfl h

theorem not_lineWins_rows (grid : Grid) (h : ¬ LineWins (rowLine grid) (List.range grid.length)) :
    ∀ row, row ∈ grid → (checkRow row).won = false := by
  intro row hrow
  obtain ⟨i, hi, rfl⟩ := List.getElem_of_mem hrow
  exact bool_not_true (fun hw =>
    h ⟨i, List.mem_range.2 hi, _, List.getElem?_eq_getElem hi, hw⟩)

theorem not_lineWins_columns (grid : Grid) (C : Nat)
    (h : ¬ LineWins (columnLine grid) (List.range C)) :
    ∀ i, i < C → (checkRow (column grid i)).won = false := by
  intro i hi
  exact bool_not_true (fun hw => h ⟨i, List.mem_range.2 hi, _, rfl, hw⟩)

/-- With fewer rows than columns and no winning row or column, the first diagonal
reads past the last row. -/
theorem checkWin_throws (grid : Grid) (R C : Nat) (hrect : Rect grid R C) (hR : 0 < R)
    (hRC : R < C) (hrows : ¬ LineWins (rowLine grid) (List.range R))
    (hcols : ¬ LineWins (columnLine grid) (List.range C)) : checkWin grid = none := by
  have hlen : grid.length = R := hrect.1
  rw [checkWin_eq grid R C hrect hR]
  rw [← hlen] at hrows ⊢
  rw [rows_skip grid _ (not_lineWins_rows grid hrows)]
  rw [columns_skip grid C _ (not_lineWins_columns grid C hcols)]
  obtain ⟨C', rfl⟩ : ∃ C', C = C' + 1 := ⟨C - 1, by omega⟩
  rw [List.range_succ_eq_map]
  have : descUpper grid (C' + 1) 0 = none := walk_throws grid 1 _ _ _ (by omega) (by omega)
  simp only [forEachLine, this]

/-! ## Facts about the sample inputs -/

theorem grid_rect : Rect grid 7 6 := by
  refine ⟨rfl, ?_⟩
  decide

theorem grid_ascRun : HasRun grid 1 := by
  refine ⟨0, 0, Or.inr (Or.inr (Or.inr (fun k hk => ?_)))⟩
  interval_cases k <;> exact ⟨_, rfl, rfl⟩

theorem tallGrid_rect : Rect tallGrid 9 4 := by
  refine ⟨rfl, ?_⟩
  decide

theorem tallGrid_run : HasRun tallGrid 1 := by
  refine ⟨5, 0, Or.inr (Or.inr (Or.inl (fun k hk => ?_)))⟩
  interval_cases k <;> exact ⟨_, rfl, rfl⟩

theorem columnZeroGrid_rect : Rect columnZeroGrid 7 6 := by
  refine ⟨rfl, ?_⟩
  decide

theorem neutralRow_rect : Rect neutralRow 1 2 := by
  refine ⟨rfl, ?_⟩
  decide

/-! ## The claims -/

/-- C1: for every line, `checkRow` returns Won(gray) exactly when some window of
four consecutive in-range cells holds four 1s; it returns Won(white) exactly
when no window holds four 1s and some window holds four 2s; it returns NotWon
exactly when neither player has a window.  A window is made of cells equal to
1 or to 2 only, so no other value contributes to a win. -/
theorem C1_checkRow_windows (row : List Cell) :
    (checkRow row = wonBy Winner.gray ↔
        ∃ i, i + 3 < row.length ∧ ∀ k, k < 4 → row[i + k]? = some (some 1)) ∧
    (checkRow row = wonBy Winner.white ↔
        (¬ ∃ i, i + 3 < row.length ∧ ∀ k, k < 4 → row[i + k]? = some (some 1)) ∧
          ∃ i, i + 3 < row.length ∧ ∀ k, k < 4 → row[i + k]? = some (some 2)) ∧
    (checkRow row = notWon ↔
        (¬ ∃ i, i + 3 < row.length ∧ ∀ k, k < 4 → row[i + k]? = some (some 1)) ∧
          ¬ ∃ i, i + 3 < row.length ∧ ∀ k, k < 4 → row[i + k]? = some (some 2)) :=
  ⟨checkRow_gray_iff row, checkRow_white_iff row, checkRow_notWon_iff row⟩

/-- C2: on every grid of 7 rows and 6 columns (whatever its cells hold, in
particular values in 0, 1, 2) `checkWin` returns a Won result if and only if
the grid contains four in-bounds cells, contiguous along a row, a column, a
descending or an ascending diagonal, that all hold 1 or all hold 2; and a
result Won(p) means that player p has such a run. -/
theorem C2_checkWin_7x6 (g : Grid) (hrect : Rect g 7 6) :
    (IsWon (checkWin g) ↔ HasRun g 1 ∨ HasRun g 2) ∧
      ∀ v, checkWin g = some (wonBy v) → HasRun g (playerValue v) := by
  constructor
  · constructor
    · rintro ⟨w, hw, hwon⟩
      obtain ⟨v, _, hrun⟩ := checkWin_sound g w hw hwon
      cases v
      · exact Or.inl hrun
      · exact Or.inr hrun
    · rintro (h | h)
      · exact checkWin_complete g 7 6 hrect (by omega) (by omega) 1 (Or.inl rfl) h
      · exact checkWin_complete g 7 6 hrect (by omega) (by omega) 2 (Or.inr rfl) h
  · intro v hv
    obtain ⟨v', hv', hrun⟩ := checkWin_sound g (wonBy v) hv rfl
    have : v = v' := by
      simpa [wonBy] using hv'
    rw [this]
    exact hrun

/-- C2, at the sample grid of the source. -/
theorem C2_checkWin_7x6_witness :
    Rect grid 7 6 ∧
      ((IsWon (checkWin grid) ↔ HasRun grid 1 ∨ HasRun grid 2) ∧
        ∀ v, checkWin grid = some (wonBy v) → HasRun grid (playerValue v)) :=
  ⟨grid_rect, C2_checkWin_7x6 grid grid_rect⟩

/-- C3: on every grid (rectangular or not) a result Won(p) of `checkWin` means
that the grid contains four in-bounds cells, contiguous along a row, a column
or a diagonal, that all hold the value of player p; so a grid without a run of
four, whatever runs of three it has, never yields a Won result. -/
theorem C3_won_has_run (g : Grid) (w : WinResult) (h : checkWin g = some w)
    (hw : w.won = true) : ∃ v, w = wonBy v ∧ HasRun g (playerValue v) :=
  checkWin_sound g w h hw

/-- C3, at the sample grid of the source. -/
theorem C3_won_has_run_witness :
    checkWin grid = some (wonBy Winner.gray) ∧ (wonBy Winner.gray).won = true ∧
      ∃ v, wonBy Winner.gray = wonBy v ∧ HasRun grid (playerValue v) :=
  ⟨by decide, rfl, C3_won_has_run grid (wonBy Winner.gray) (by decide) rfl⟩

/-- C4 fails on the code: the 9 x 4 grid `tallGrid` is rectangular and holds four
1s along the descending diagonal from `(5, 0)`, yet `checkWin` returns NotWon.
The lower descending loop runs `number_of_columns` = 4 times, so it builds the
diagonals that start in rows 1 to 4 only: none of the descending diagonals it
reads, from the top row or from the left column, contains the position
`(5, 0)`, and the fourth loop's lines all give NotWon. -/
theorem C4_tall_grid_diagonal_missed :
    Rect tallGrid 9 4 ∧ HasRun tallGrid 1 ∧ DescRun tallGrid 1 5 0 ∧
      checkWin tallGrid = some notWon ∧
      (∀ i, i < 4 → ((5, 0) : Nat × Int) ∉ descPositions 9 4 (Diagonal.upper i) ∧
        ((5, 0) : Nat × Int) ∉ descPositions 9 4 (Diagonal.lower i)) ∧
      (∀ i, i < 4 → ∃ l, descLower tallGrid 9 i = some l ∧ checkRow l = notWon) := by
  refine ⟨tallGrid_rect, tallGrid_run, ?_, by decide, ?_, ?_⟩
  · intro k hk
    interval_cases k <;> exact ⟨_, rfl, rfl⟩
  · intro i hi
    interval_cases i <;> decide
  · intro i hi
    interval_cases i <;> exact ⟨_, rfl, by decide⟩

/-- C5, as stated, fails: the 1 x 2 grid of neutral cells is rectangular and
`checkWin` throws on it (the first diagonal reads `grid[1][1]`); so it does on
the grid without rows (`grid[0].length`). -/
theorem C5_counterexample :
    Rect neutralRow 1 2 ∧ checkWin neutralRow = none ∧
      Rect [] 0 0 ∧ checkWin [] = none :=
  ⟨neutralRow_rect, by decide, ⟨rfl, by decide⟩, by decide⟩

/-- C5, amended: for every rectangular grid of `R` rows and `C` columns,
`checkWin` produces a result (Won or NotWon) if and only if the grid has at
least one row and either has at least as many rows as columns or has a winning
row or column; in particular it produces a result, and reads no missing row,
whenever `R ≥ 1` and `R ≥ C`. -/
theorem C5_returns_iff (g : Grid) (R C : Nat) (hrect : Rect g R C) :
    ((∃ w, checkWin g = some w ∧ (w = notWon ∨ ∃ v, w = wonBy v)) ↔
        0 < R ∧ (C ≤ R ∨ LineWins (rowLine g) (List.range R) ∨
          LineWins (columnLine g) (List.range C))) ∧
      (0 < R → C ≤ R → ∃ w, checkWin g = some w ∧ (w = notWon ∨ ∃ v, w = wonBy v)) := by
  have hlen : g.length = R := hrect.1
  have some_of_isSome : (checkWin g).isSome = true →
      ∃ w, checkWin g = some w ∧ (w = notWon ∨ ∃ v, w = wonBy v) := by
    intro h
    obtain ⟨w, hw⟩ := Option.isSome_iff_exists.1 h
    exact ⟨w, hw, checkWin_shape g w hw⟩
  refine ⟨⟨?_, ?_⟩, fun hR hCR => some_of_isSome (checkWin_returns g R C hrect hR hCR)⟩
  · rintro ⟨w, hw, _⟩
    have hR : 0 < R := by
      rcases Nat.eq_zero_or_pos R with h0 | h0
      · rw [h0] at hlen
        rw [List.length_eq_zero.1 hlen] at hw
        simp [checkWin] at hw
      · exact h0
    refine ⟨hR, ?_⟩
    by_contra hcon
    push_neg at hcon
    rw [checkWin_throws g R C hrect hR hcon.1 hcon.2.1 hcon.2.2] at hw
    cases hw
  · rintro ⟨hR, hCR | hrow | hcol⟩
    · exact some_of_isSome (checkWin_returns g R C hrect hR hCR)
    · apply some_of_isSome
      apply IsWon.isSome
      rw [checkWin_eq g R C hrect hR]
      rw [forEachLine_isWon _ _ _ (fun i hi => rowLine_built g i (by rw [hlen]; exact hi))]
      exact Or.inl hrow
    · apply some_of_isSome
      apply IsWon.isSome
      rw [checkWin_eq g R C hrect hR]
      rw [forEachLine_isWon _ _ _ (fun i hi => rowLine_built g i (by rw [hlen]; exact hi))]
      rw [forEachLine_isWon _ _ _ (fun i _ => columnLine_built g i)]
      exact Or.inr (Or.inl hcol)

/-- C5 amended, at the sample grid of the source. -/
theorem C5_returns_iff_witness :
    Rect grid 7 6 ∧ 0 < 7 ∧ 6 ≤ 7 ∧
      ∃ w, checkWin grid = some w ∧ (w = notWon ∨ ∃ v, w = wonBy v) :=
  ⟨grid_rect, by decide, by decide,
    (C5_returns_iff grid 7 6 grid_rect).2 (by decide) (by decide)⟩

/-- C6: rows are decided before every other family.  On every grid (its row
`i` exists, so it has at least one row), if `checkRow` reports a win for row
`i` and for no row of lower index, `checkWin` returns exactly `checkRow` of
row `i`, whatever the columns and diagonals contain. -/
theorem C6_rows_first (g : Grid) (i : Nat) (row : List Cell) (hi : g[i]? = some row)
    (hwon : (checkRow row).won = true)
    (hlow : ∀ j rowj, j < i → g[j]? = some rowj → (checkRow rowj).won = false) :
    checkWin g = some (checkRow row) := by
  have hlt : i < g.length := (List.getElem?_eq_some_iff.1 hi).1
  unfold checkWin
  cases h0 : g[0]? with
  | none =>
    have := List.getElem?_eq_none_iff.1 h0
    omega
  | some row0 =>
    simp only []
    rw [List.range_eq_range']
    apply forEachLine_first (rowLine g) _ i row hi hwon g.length 0 (by omega) (by omega)
    intro j _ hj
    have hjlt : j < g.length := by omega
    exact ⟨g[j], List.getElem?_eq_getElem hjlt,
      hlow j g[j] hj (List.getElem?_eq_getElem hjlt)⟩

/-- C6, at a grid with a white winning row and a gray winning column: white is reported. -/
theorem C6_rows_first_witness :
    rowAndColumnGrid[3]? = some [some 1, some 2, some 2, some 2, some 2] ∧
      (checkRow (column rowAndColumnGrid 0)) = wonBy Winner.gray ∧
      checkWin rowAndColumnGrid = some (wonBy Winner.white) :=
  ⟨rfl, by decide,
    C6_rows_first rowAndColumnGrid 3 [some 1, some 2, some 2, some 2, some 2] rfl
      (by decide)
      (by
        intro j rowj hj hrow
        interval_cases j <;> (cases hrow; decide))⟩

/-- C7: columns are decided before diagonals.  On every rectangular grid with at
least one row, if no row is a winning line and `checkRow` reports a win for
column `i` (read top to bottom) and for no column of lower index, `checkWin`
returns exactly `checkRow` of column `i`, whatever the diagonals contain; and a
grid whose column 0 holds 1 in rows 0 to 3 and which is neutral elsewhere
yields Won(gray). -/
theorem C7_columns_second (g : Grid) (R C : Nat) (hrect : Rect g R C) (hR : 0 < R) :
    ((∀ row, row ∈ g → (checkRow row).won = false) →
        ∀ i, i < C → (checkRow (column g i)).won = true →
          (∀ j, j < i → (checkRow (column g j)).won = false) →
          checkWin g = some (checkRow (column g i))) ∧
      ((∀ r, r < 4 → Holds g 1 r 0) →
        (∀ r c, r < R → c < C → 4 ≤ r ∨ 0 < c → Holds g 0 r c) →
        checkWin g = some (wonBy Winner.gray)) := by
  have hlen : g.length = R := hrect.1
  have general : (∀ row, row ∈ g → (checkRow row).won = false) →
      ∀ i, i < C → (checkRow (column g i)).won = true →
        (∀ j, j < i → (checkRow (column g j)).won = false) →
        checkWin g = some (checkRow (column g i)) := by
    intro hrows i hi hwon hlow
    rw [checkWin_eq g R C hrect hR, ← hlen, rows_skip g _ hrows, List.range_eq_range']
    exact forEachLine_first (columnLine g) _ i (column g i) rfl hwon C 0 (by omega)
      (by omega) (fun j _ hj => ⟨column g j, rfl, hlow j hj⟩)
  refine ⟨general, fun hones hzeros => ?_⟩
  have hC : 0 < C := ((hones 0 (by omega)).bounds hrect).2
  have hcol : checkRow (column g 0) = wonBy Winner.gray := by
    rw [checkRow_gray_iff]
    exact columnRun_window g 1 0 0 (fun k hk => by simpa using hones k hk)
  have hrows : ∀ row, row ∈ g → (checkRow row).won = false := by
    intro row hrow
    obtain ⟨r, hr, rfl⟩ := List.getElem_of_mem hrow
    apply bool_not_true
    intro hw
    obtain ⟨v, _, j, hj, hk⟩ := checkRow_won g[r] hw
    have h1 := hk 1 (by omega)
    have hrowC : g[r].length = C := hrect.2 _ hrow
    obtain ⟨row', hr', hc'⟩ := hzeros r (j + 1) (by omega) (by omega) (Or.inr (by omega))
    rw [List.getElem?_eq_getElem hr] at hr'
    cases hr'
    rw [h1] at hc'
    cases v <;> simp [playerValue] at hc'
  rw [general hrows 0 hC (by rw [hcol]; rfl) (fun j hj => by omega), hcol]

/-- C7, at the 7 x 6 grid whose column 0 holds 1, 1, 1, 1, 0, 0, 0. -/
theorem C7_columns_second_witness :
    Rect columnZeroGrid 7 6 ∧ 0 < 7 ∧
      checkWin columnZeroGrid = some (checkRow (column columnZeroGrid 0)) ∧
      checkWin columnZeroGrid = some (wonBy Winner.gray) :=
  ⟨columnZeroGrid_rect, by decide,
    (C7_columns_second columnZeroGrid 7 6 columnZeroGrid_rect (by decide)).1
      (by decide) 0 (by decide) (by decide) (fun j hj => absurd hj (Nat.not_lt_zero j)),
    (C7_columns_second columnZeroGrid 7 6 columnZeroGrid_rect (by decide)).2
      (by
        intro r hr
        interval_cases r <;> exact ⟨_, rfl, rfl⟩)
      (by
        intro r c hr hc h
        interval_cases r <;> interval_cases c <;>
          first
          | exact ⟨_, rfl, rfl⟩
          | (exfalso; omega))⟩

/-- C8: a line of length 0, 1, 2 or 3 gives NotWon, whatever it contains. -/
theorem C8_short_line (row : List Cell) (h : row.length ≤ 3) : checkRow row = notWon := by
  unfold checkRow
  rw [if_pos h]

/-- C8, at the line 1, 1, 1. -/
theorem C8_short_line_witness :
    [some (1 : Int), some 1, some 1].length ≤ 3 ∧
      checkRow [some 1, some 1, some 1] = notWon :=
  ⟨by decide, C8_short_line [some 1, some 1, some 1] (by decide)⟩

/-- C9: a line of exactly four cells that all hold the value of one player
(1 for gray, 2 for white) gives Won for that player. -/
theorem C9_four_cells (row : List Cell) (v : Winner) (hlen : row.length = 4)
    (h : ∀ k, k < 4 → row[k]? = some (some (playerValue v))) : checkRow row = wonBy v := by
  have hwin : HasWindow row (playerValue v) :=
    ⟨0, by omega, fun k hk => by simpa using h k hk⟩
  cases v with
  | gray => exact (checkRow_gray_iff row).2 hwin
  | white =>
    refine (checkRow_white_iff row).2 ⟨?_, hwin⟩
    rintro ⟨i, hi, hk⟩
    have h0 := hk 0 (by omega)
    have hi0 : i = 0 := by omega
    subst hi0
    rw [h 0 (by omega)] at h0
    simp [playerValue] at h0

/-- C9, at the line 2, 2, 2, 2. -/
theorem C9_four_cells_witness :
    [some (2 : Int), some 2, some 2, some 2].length = 4 ∧
      checkRow [some 2, some 2, some 2, some 2] = wonBy Winner.white :=
  ⟨rfl, C9_four_cells [some 2, some 2, some 2, some 2] Winner.white rfl
    (by
      intro k hk
      interval_cases k <;> rfl)⟩

/-- C10: the boundary of the window scan.  A line of length `n ≥ 4` whose last
four cells (indices `n - 4` to `n - 1`) hold the value of one player gives a
Won result, as `[1,0,1,1,1,1]` gives Won(gray); and in a line where no four
consecutive cells hold the same player value, a run of a player on the last
three cells (from index `n - 3`) does not produce Won. -/
theorem C10_boundary (row : List Cell) (v : Winner) :
    (4 ≤ row.length →
        (∀ k, k < 4 → row[row.length - 4 + k]? = some (some (playerValue v))) →
        (checkRow row).won = true) ∧
      ((∀ i p, p = 1 ∨ p = 2 → ¬ Window row p i) →
        3 ≤ row.length →
        (∀ k, k < 3 → row[row.length - 3 + k]? = some (some (playerValue v))) →
        checkRow row = notWon) ∧
      checkRow (ofInts [1, 0, 1, 1, 1, 1]) = wonBy Winner.gray := by
  refine ⟨fun hlen h => ?_, fun hno _ _ => ?_, by decide⟩
  · apply checkRow_won_of_window row (playerValue v) (by cases v <;> simp [playerValue])
    exact ⟨row.length - 4, by omega, h⟩
  · rw [checkRow_notWon_iff]
    exact ⟨fun ⟨i, hi⟩ => hno i 1 (Or.inl rfl) hi, fun ⟨i, hi⟩ => hno i 2 (Or.inr rfl) hi⟩

/-- C10, at the lines 1, 0, 1, 1, 1, 1 (window at the last valid start) and
0, 1, 1, 1 (a run on the last three cells only). -/
theorem C10_boundary_witness :
    (checkRow [some 1, some 0, some 1, some 1, some 1, some 1]).won = true ∧
      checkRow [some 0, some 1, some 1, some 1] = notWon :=
  ⟨(C10_boundary [some 1, some 0, some 1, some 1, some 1, some 1] Winner.gray).1
      (by decide)
      (by
        intro k hk
        interval_cases k <;> rfl),
    (C10_boundary [some 0, some 1, some 1, some 1] Winner.gray).2.1
      (by
        rintro i p hp ⟨hi, hk⟩
        have hi0 : i = 0 := by
          simp only [List.length_cons, List.length_nil] at hi
          omega
        subst hi0
        have h0 := hk 0 (by omega)
        rcases hp with rfl | rfl <;> simp at h0)
      (by decide)
      (by
        intro k hk
        interval_cases k <;> rfl)⟩

/-! ## Lines with the same windows -/

/-- The result of `checkRow` depends only on which players have a window. -/
theorem checkRow_congr (l l' : List Cell)
    (h : ∀ p, p = 1 ∨ p = 2 → (HasWindow l p ↔ HasWindow l' p)) :
    checkRow l = checkRow l' := by
  have h1 := h 1 (Or.inl rfl)
  have h2 := h 2 (Or.inr rfl)
  rcases checkRow_cases l with hl | hl | hl
  · rw [hl]
    exact ((checkRow_gray_iff l').2 (h1.1 ((checkRow_gray_iff l).1 hl))).symm
  · rw [hl]
    have := (checkRow_white_iff l).1 hl
    exact ((checkRow_white_iff l').2 ⟨fun hw => this.1 (h1.2 hw), h2.1 this.2⟩).symm
  · rw [hl]
    have := (checkRow_notWon_iff l).1 hl
    exact ((checkRow_notWon_iff l').2
      ⟨fun hw => this.1 (h1.2 hw), fun hw => this.2 (h2.2 hw)⟩).symm

theorem window_reverse (l : List Cell) (p : Int) (i : Nat) (h : Window l p i) :
    Window l.reverse p (l.length - 4 - i) := by
  obtain ⟨hi, hk⟩ := h
  refine ⟨by rw [List.length_reverse]; omega, fun k hk4 => ?_⟩
  rw [List.getElem?_reverse (by omega)]
  have e : l.length - 1 - (l.length - 4 - i + k) = i + (3 - k) := by omega
  rw [e]
  exact hk (3 - k) (by omega)

theorem hasWindow_reverse (l : List Cell) (p : Int) :
    HasWindow l.reverse p ↔ HasWindow l p := by
  constructor
  · rintro ⟨i, hi⟩
    have := window_reverse l.reverse p i hi
    rw [List.reverse_reverse] at this
    exact ⟨_, this⟩
  · rintro ⟨i, hi⟩
    exact ⟨_, window_reverse l p i hi⟩

/-! ## The claims, continued -/

/-- C11: player priority in a single line.  A line that contains both four
consecutive 1s and four consecutive 2s gives Won(gray), wherever the two
windows sit, also when the window of 2s comes first as in
`[2,2,2,2,1,1,1,1]`. -/
theorem C11_gray_first (row : List Cell) (h1 : HasWindow row 1) (_h2 : HasWindow row 2) :
    checkRow row = wonBy Winner.gray ∧
      checkRow (ofInts [2, 2, 2, 2, 1, 1, 1, 1]) = wonBy Winner.gray :=
  ⟨(checkRow_gray_iff row).2 h1, by decide⟩

/-- C11, at the line 2, 2, 2, 2, 1, 1, 1, 1. -/
theorem C11_gray_first_witness :
    HasWindow (ofInts [2, 2, 2, 2, 1, 1, 1, 1]) 1 ∧
      HasWindow (ofInts [2, 2, 2, 2, 1, 1, 1, 1]) 2 ∧
      checkRow (ofInts [2, 2, 2, 2, 1, 1, 1, 1]) = wonBy Winner.gray :=
  have h1 : HasWindow (ofInts [2, 2, 2, 2, 1, 1, 1, 1]) 1 :=
    ⟨4, by decide, fun k hk => by interval_cases k <;> rfl⟩
  have h2 : HasWindow (ofInts [2, 2, 2, 2, 1, 1, 1, 1]) 2 :=
    ⟨0, by decide, fun k hk => by interval_cases k <;> rfl⟩
  ⟨h1, h2, (C11_gray_first (ofInts [2, 2, 2, 2, 1, 1, 1, 1]) h1 h2).1⟩

/-- C19: `checkRow` is invariant under reversal: a line and its reverse give the
same result (same `won` flag, same winner). -/
theorem C19_reverse (row : List Cell) : checkRow row.reverse = checkRow row :=
  checkRow_congr _ _ (fun p _ => hasWindow_reverse row p)

/-! ## The neutral grid -/

theorem neutralGrid_rect (R C : Nat) : Rect (neutralGrid R C) R C := by
  refine ⟨List.length_replicate _ _, fun row hrow => ?_⟩
  rw [(List.mem_replicate.1 hrow).2]
  exact List.length_replicate _ _

theorem neutralGrid_holds (R C : Nat) (p : Int) (r c : Nat)
    (h : Holds (neutralGrid R C) p r c) : p = 0 := by
  obtain ⟨row, hr, hc⟩ := h
  have hrow : row = List.replicate C (some 0) :=
    (List.mem_replicate.1 (rect_mem_of_getElem? hr)).2
  rw [hrow, List.getElem?_replicate] at hc
  split_ifs at hc
  simpa using hc.symm

theorem neutralGrid_no_run (R C : Nat) (v : Winner) :
    ¬ HasRun (neutralGrid R C) (playerValue v) := by
  rintro ⟨r, c, h | h | h | h⟩ <;>
    · have := neutralGrid_holds R C _ _ _ (h 0 (by omega))
      cases v <;> simp [playerValue] at this

theorem neutralGrid_no_row (R C : Nat) :
    ¬ LineWins (rowLine (neutralGrid R C)) (List.range R) := by
  rintro ⟨i, _, l, hl, hw⟩
  obtain ⟨v, _, hwin⟩ := checkRow_won l hw
  exact neutralGrid_no_run R C v (rowLine_run _ i l _ hl hwin)

theorem neutralGrid_no_column (R C : Nat) :
    ¬ LineWins (columnLine (neutralGrid R C)) (List.range C) := by
  rintro ⟨i, _, l, hl, hw⟩
  obtain ⟨v, _, hwin⟩ := checkRow_won l hw
  exact neutralGrid_no_run R C v (columnLine_run _ i l _ hl hwin)

/-- C12, as stated, fails: on the all-neutral grid of 2 rows and 3 columns
`checkWin` throws instead of returning NotWon (the first diagonal reads
`grid[2][2]`), and so it does on the neutral grid without rows. -/
theorem C12_counterexample :
    checkWin (neutralGrid 2 3) = none ∧ checkWin (neutralGrid 0 0) = none :=
  ⟨by decide, by decide⟩

/-- C12, amended: for every number of rows `R ≥ 1` and of columns `C ≤ R`,
`checkWin` on the `R` x `C` grid whose cells are all neutral returns NotWon;
with no row, or with fewer rows than columns, it throws. -/
theorem C12_neutral (R C : Nat) :
    (0 < R → C ≤ R → checkWin (neutralGrid R C) = some notWon) ∧
      (R = 0 ∨ R < C → checkWin (neutralGrid R C) = none) := by
  constructor
  · intro hR hCR
    obtain ⟨w, hw⟩ := Option.isSome_iff_exists.1
      (checkWin_returns _ R C (neutralGrid_rect R C) hR hCR)
    rcases checkWin_shape _ w hw with h | ⟨v, hv⟩
    · rw [hw, h]
    · obtain ⟨v', _, hrun⟩ := checkWin_sound _ w hw (by rw [hv]; rfl)
      exact absurd hrun (neutralGrid_no_run R C v')
  · intro h
    rcases Nat.eq_zero_or_pos R with h0 | hR
    · subst h0
      rfl
    · exact checkWin_throws _ R C (neutralGrid_rect R C) hR (by omega)
        (neutralGrid_no_row R C) (neutralGrid_no_column R C)

/-- C12 amended, at the neutral grids of 7 x 6 (a result) and of 3 x 5 (a throw). -/
theorem C12_neutral_witness :
    checkWin (neutralGrid 7 6) = some notWon ∧ checkWin (neutralGrid 3 5) = none :=
  ⟨(C12_neutral 7 6).1 (by decide) (by decide), (C12_neutral 3 5).2 (Or.inr (by decide))⟩

/-- C17: on every rectangular grid of `R ≥ 1` rows and `C` columns with
`C ≤ R ≤ C + 4`, `checkWin` returns a Won result if and only if the grid
contains four contiguous in-bounds cells with the same player value along a
row, a column, a descending diagonal or an ascending diagonal. -/
theorem C17_exact_domain (g : Grid) (R C : Nat) (hrect : Rect g R C) (_hR : 0 < R)
    (hCR : C ≤ R) (hRC : R ≤ C + 4) :
    IsWon (checkWin g) ↔ HasRun g 1 ∨ HasRun g 2 := by
  constructor
  · rintro ⟨w, hw, hwon⟩
    obtain ⟨v, _, hrun⟩ := checkWin_sound g w hw hwon
    cases v
    · exact Or.inl hrun
    · exact Or.inr hrun
  · rintro (h | h)
    · exact checkWin_complete g R C hrect hCR hRC 1 (Or.inl rfl) h
    · exact checkWin_complete g R C hrect hCR hRC 2 (Or.inr rfl) h

/-- C17, at the 7 x 6 grid whose column 0 holds four 1s. -/
theorem C17_exact_domain_witness :
    Rect columnZeroGrid 7 6 ∧ 0 < 7 ∧ 6 ≤ 7 ∧ 7 ≤ 6 + 4 ∧
      (IsWon (checkWin columnZeroGrid) ↔
        HasRun columnZeroGrid 1 ∨ HasRun columnZeroGrid 2) :=
  ⟨columnZeroGrid_rect, by decide, by decide, by decide,
    C17_exact_domain columnZeroGrid 7 6 columnZeroGrid_rect (by decide) (by decide)
      (by decide)⟩

/-- C20: on the sample grid of the source `checkWin` returns
`{ winner: "gray", won: true }`; no row, no column and no descending diagonal
of that grid is a winning line, nor are the first two ascending diagonals; the
win is found by the upper ascending family at offset `i = 2`, on the diagonal
that starts at `(0, 3)`. -/
theorem C20_sample_grid :
    checkWin grid = some (wonBy Winner.gray) ∧
      (∀ i, i < 7 → ∃ l, rowLine grid i = some l ∧ checkRow l = notWon) ∧
      (∀ i, i < 6 → ∃ l, columnLine grid i = some l ∧ checkRow l = notWon) ∧
      (∀ i, i < 6 → ∃ l, descUpper grid 6 i = some l ∧ checkRow l = notWon) ∧
      (∀ i, i < 6 → ∃ l, descLower grid 7 i = some l ∧ checkRow l = notWon) ∧
      (∀ i, i < 2 → ∃ l, ascUpper grid 6 i = some l ∧ checkRow l = notWon) ∧
      ascUpper grid 6 2 = some [some 1, some 1, some 1, some 1] ∧
      ascUpperPositions 6 2 = [(0, 3), (1, 2), (2, 1), (3, 0)] ∧
      checkRow [some 1, some 1, some 1, some 1] = wonBy Winner.gray := by
  refine ⟨by decide, ?_, ?_, ?_, ?_, ?_, by decide, by decide, by decide⟩
  · intro i hi
    interval_cases i <;> exact ⟨_, rfl, by decide⟩
  · intro i hi
    interval_cases i <;> exact ⟨_, rfl, by decide⟩
  · intro i hi
    interval_cases i <;> exact ⟨_, rfl, by decide⟩
  · intro i hi
    interval_cases i <;> exact ⟨_, rfl, by decide⟩
  · intro i hi
    interval_cases i <;> exact ⟨_, rfl, by decide⟩

/-! ## The lines of the specification and the lines that are built -/

theorem valueAt_eq_some (grid : Grid) (p : Int) (r c : Nat) :
    valueAt grid r c = some p ↔ Holds grid p r c := by
  unfold valueAt Holds
  cases hr : grid[r]? with
  | none => simp
  | some row =>
    cases hc : row[c]? with
    | none => simp [hc]
    | some v => simp [hc]

theorem window_map_range (f : Nat → Cell) (m : Nat) (p : Int) (j : Nat) :
    Window ((List.range m).map f) p j ↔ j + 3 < m ∧ ∀ k, k < 4 → f (j + k) = some p := by
  unfold Window
  simp only [List.length_map, List.length_range]
  constructor
  · rintro ⟨hj, h⟩
    refine ⟨hj, fun k hk => ?_⟩
    have h1 := h k hk
    rw [List.getElem?_map, List.getElem?_range (by omega)] at h1
    exact Option.some.inj h1
  · rintro ⟨hj, h⟩
    refine ⟨hj, fun k hk => ?_⟩
    rw [List.getElem?_map, List.getElem?_range (by omega)]
    exact congrArg some (h k hk)

/-- A built descending diagonal that covers the cells of the grid on it gives
the result of the diagonal of the grid. -/
theorem checkRow_walk_desc (grid : Grid) (R C : Nat) (hrect : Rect grid R C)
    (n r c : Nat) (hn : min (R - r) (C - c) ≤ n) :
    checkRow (walkCells grid 1 n r (c : Int)) = checkRow (descendingFrom grid R C r c) := by
  apply checkRow_congr
  intro p _
  unfold descendingFrom
  constructor
  · rintro ⟨j, hj⟩
    rw [window_walkCells] at hj
    refine ⟨j, (window_map_range _ _ p j).2 ⟨?_, fun k hk => ?_⟩⟩
    · have h3 := (hj.2 3 (by omega)).2
      have e : ((c : Int) + 1 * ((j + 3 : Nat) : Int)).toNat = c + (j + 3) := by omega
      rw [e] at h3
      have := h3.bounds hrect
      omega
    · rw [valueAt_eq_some]
      have hk' := (hj.2 k hk).2
      have e : ((c : Int) + 1 * ((j + k : Nat) : Int)).toNat = c + (j + k) := by omega
      rw [e] at hk'
      exact hk'
  · rintro ⟨j, hj⟩
    rw [window_map_range] at hj
    refine ⟨j, (window_walkCells grid 1 n r c p j).2 ⟨by omega, fun k hk => ⟨by omega, ?_⟩⟩⟩
    have e : ((c : Int) + 1 * ((j + k : Nat) : Int)).toNat = c + (j + k) := by omega
    rw [e]
    exact (valueAt_eq_some grid p _ _).1 (hj.2 k hk)

/-- A built ascending diagonal that covers the cells of the grid on it gives the
result of the diagonal of the grid. -/
theorem checkRow_walk_asc (grid : Grid) (R C : Nat) (hrect : Rect grid R C)
    (n r c : Nat) (x : Int) (hx : x = (c : Int)) (hn : min (R - r) (c + 1) ≤ n) :
    checkRow (walkCells grid (-1) n r x) = checkRow (ascendingFrom grid R r c) := by
  subst hx
  apply checkRow_congr
  intro p _
  unfold ascendingFrom
  constructor
  · rintro ⟨j, hj⟩
    rw [window_walkCells] at hj
    have h3 := hj.2 3 (by omega)
    refine ⟨j, (window_map_range _ _ p j).2 ⟨?_, fun k hk => ?_⟩⟩
    · have := h3.2.bounds hrect
      have := h3.1
      omega
    · rw [valueAt_eq_some]
      have hk' := (hj.2 k hk).2
      have := h3.1
      have e : ((c : Int) + -1 * ((j + k : Nat) : Int)).toNat = c - (j + k) := by omega
      rw [e] at hk'
      exact hk'
  · rintro ⟨j, hj⟩
    rw [window_map_range] at hj
    refine ⟨j, (window_walkCells grid (-1) n r c p j).2
      ⟨by omega, fun k hk => ⟨by omega, ?_⟩⟩⟩
    have e : ((c : Int) + -1 * ((j + k : Nat) : Int)).toNat = c - (j + k) := by omega
    rw [e]
    exact (valueAt_eq_some grid p _ _).1 (hj.2 k hk)

/-- A loop of `checkWin` all of whose lines are built returns the first Won
result over its lines, then over the lines that follow. -/
theorem forEachLine_firstWon (build : Nat → Option (List Cell)) (f : Nat → List Cell)
    (is : List Nat) (rest : List (List Cell))
    (h : ∀ i, i ∈ is → ∃ l, build i = some l ∧ checkRow l = checkRow (f i)) :
    forEachLine build is (some (firstWon rest)) = some (firstWon (is.map f ++ rest)) := by
  induction is with
  | nil => rfl
  | cons i is ih =>
    obtain ⟨l, hl, hc⟩ := h i (List.mem_cons_self _ _)
    have ih' := ih (fun j hj => h j (List.mem_cons_of_mem _ hj))
    simp only [forEachLine, hl, List.map_cons, List.cons_append, firstWon, hc]
    by_cases hw : (checkRow (f i)).won = true
    · simp only [hw, if_true]
    · simp only [hw, if_false]
      exact ih'

theorem rowLine_getD (grid : Grid) (i : Nat) (hi : i ∈ List.range grid.length) :
    rowLine grid i = some (grid.getD i []) := by
  have hi' : i < grid.length := List.mem_range.1 hi
  unfold rowLine
  rw [List.getD_eq_getElem?_getD, List.getElem?_eq_getElem hi']
  rfl

theorem descendingFrom_main (grid : Grid) (R C : Nat) (hCR : C ≤ R) :
    descendingFrom grid R C 0 0 = mainDiagonal grid C := by
  unfold descendingFrom mainDiagonal
  have e : min (R - 0) (C - 0) = C := by omega
  rw [e]
  simp

/-- C15: on every rectangular grid of `R ≥ 1` rows and `C ≤ R` columns,
`checkWin` returns the first Won result of `checkRow` over the fixed sequence of
lines (rows 0 to R-1; columns 0 to C-1 read top to bottom; for i from 0 to C-1
the descending diagonal from (0, i); then from (1 + i, 0); then the ascending
diagonal from (0, C-1-i); then from (1 + i, C-1)), or NotWon if none is Won.
The positions the code reads past a row's end hold a value that matches no
player, so the diagonals are taken inside the grid. -/
theorem C15_first_won_in_order (g : Grid) (R C : Nat) (hrect : Rect g R C)
    (hR : 0 < R) (hCR : C ≤ R) :
    checkWin g = some (firstWon (specLines g R C)) := by
  have hlen : g.length = R := hrect.1
  rw [checkWin_eq g R C hrect hR]
  unfold specLines
  have h6 : forEachLine (ascLower g R C) (List.range C) (some notWon) =
      some (firstWon ((List.range C).map (fun i => ascendingFrom g R (1 + i) (C - 1)) ++ [])) := by
    apply forEachLine_firstWon (ascLower g R C) _ (List.range C) []
    intro i hi
    have hi' : i < C := List.mem_range.1 hi
    refine ⟨_, by rw [← hlen]; exact ascLower_built g C i, ?_⟩
    rw [hlen]
    exact checkRow_walk_asc g R C hrect _ _ (C - 1) _ (by omega) (by omega)
  rw [List.append_nil] at h6
  rw [h6]
  rw [forEachLine_firstWon (ascUpper g C) (fun i => ascendingFrom g R 0 (C - 1 - i))]
  rw [forEachLine_firstWon (descLower g R) (fun i => descendingFrom g R C (1 + i) 0)]
  rw [forEachLine_firstWon (descUpper g C) (fun i => descendingFrom g R C 0 i)]
  rw [forEachLine_firstWon (columnLine g) (fun c => column g c)]
  rw [forEachLine_firstWon (rowLine g) (fun r => g.getD r [])]
  · intro i hi
    exact ⟨_, rowLine_getD g i (by rw [hlen]; exact hi), rfl⟩
  · intro i _
    exact ⟨_, rfl, rfl⟩
  · intro i _
    exact ⟨_, descUpper_built g C i (by omega),
      checkRow_walk_desc g R C hrect _ 0 i (by omega)⟩
  · intro i _
    refine ⟨_, by rw [← hlen]; exact descLower_built g i, ?_⟩
    rw [hlen]
    exact checkRow_walk_desc g R C hrect _ (1 + i) 0 (by omega)
  · intro i hi
    have hi' : i < C := List.mem_range.1 hi
    exact ⟨_, ascUpper_built g C i (by omega),
      checkRow_walk_asc g R C hrect _ 0 (C - 1 - i) _ (by omega) (by omega)⟩

/-- C15, at the sample grid of the source. -/
theorem C15_first_won_in_order_witness :
    Rect grid 7 6 ∧ 0 < 7 ∧ 6 ≤ 7 ∧ checkWin grid = some (firstWon (specLines grid 7 6)) :=
  ⟨grid_rect, by decide, by decide,
    C15_first_won_in_order grid 7 6 grid_rect (by decide) (by decide)⟩

/-- C13: the main descending diagonal is the first diagonal decided.  On every
rectangular grid with at least as many rows as columns in which no row and no
column is a winning line, if the line `grid[0][0], grid[1][1], ...,
grid[C-1][C-1]` is a winning line, `checkWin` returns exactly `checkRow` of
that line; and the 7 x 6 grid whose cells (0,0), (1,1), (2,2), (3,3) hold 2,
neutral elsewhere, yields Won(white). -/
theorem C13_main_diagonal_first (g : Grid) (R C : Nat) (hrect : Rect g R C)
    (hCR : C ≤ R) :
    ((∀ row, row ∈ g → (checkRow row).won = false) →
        (∀ i, i < C → (checkRow (column g i)).won = false) →
        (checkRow (mainDiagonal g C)).won = true →
        checkWin g = some (checkRow (mainDiagonal g C))) ∧
      checkWin diagonalGrid = some (wonBy Winner.white) := by
  refine ⟨fun hrows hcols hwon => ?_, by decide⟩
  have hlen : g.length = R := hrect.1
  have hC : 3 < C := by
    obtain ⟨v, _, hwin⟩ := checkRow_won _ hwon
    have := hwin.length
    simpa [mainDiagonal] using this
  have hline : checkRow (walkCells g 1 (C - 0) 0 ((0 : Nat) : Int)) =
      checkRow (mainDiagonal g C) := by
    rw [checkRow_walk_desc g R C hrect _ 0 0 (by omega), descendingFrom_main g R C hCR]
  rw [checkWin_eq g R C hrect (by omega), ← hlen, rows_skip g _ hrows,
    columns_skip g C _ hcols, List.range_eq_range', ← hline]
  exact forEachLine_first (descUpper g C) _ 0 _ (descUpper_built g C 0 (by omega))
    (by rw [hline]; exact hwon) C 0 (by omega) (by omega) (fun j h1 h2 => by omega)

/-- C13, at the 7 x 6 grid with 2 on (0,0), (1,1), (2,2), (3,3). -/
theorem C13_main_diagonal_first_witness :
    Rect diagonalGrid 7 6 ∧ 6 ≤ 7 ∧
      checkWin diagonalGrid = some (checkRow (mainDiagonal diagonalGrid 6)) ∧
      checkRow (mainDiagonal diagonalGrid 6) = wonBy Winner.white :=
  ⟨⟨rfl, by decide⟩, by decide,
    (C13_main_diagonal_first diagonalGrid 7 6 ⟨rfl, by decide⟩ (by decide)).1
      (by decide)
      (by
        intro i hi
        interval_cases i <;> decide)
      (by decide),
    by decide⟩

/-! ## The positions the diagonal loops read -/

theorem mem_walkPositions (dx : Int) (n : Nat) :
    ∀ (y : Nat) (x : Int) (q : Nat × Int),
      q ∈ walkPositions dx n y x ↔ ∃ k, k < n ∧ q = (y + k, x + dx * (k : Int)) := by
  induction n with
  | zero =>
    intro y x q
    simp [walkPositions]
  | succ n ih =>
    intro y x q
    simp only [walkPositions, List.mem_cons, ih]
    constructor
    · rintro (rfl | ⟨k, hk, rfl⟩)
      · exact ⟨0, by omega, by simp⟩
      · refine ⟨k + 1, by omega, ?_⟩
        have e1 : y + 1 + k = y + (k + 1) := by omega
        have e2 : x + dx + dx * (k : Int) = x + dx * ((k + 1 : Nat) : Int) := by
          push_cast; ring
        rw [e1, e2]
    · rintro ⟨k, hk, rfl⟩
      cases k with
      | zero => exact Or.inl (by simp)
      | succ k =>
        refine Or.inr ⟨k, by omega, ?_⟩
        have e1 : y + 1 + k = y + (k + 1) := by omega
        have e2 : x + dx + dx * (k : Int) = x + dx * ((k + 1 : Nat) : Int) := by
          push_cast; ring
        rw [e1, e2]

/-- The cells a walk pushes are the cells at the positions it reads. -/
theorem walkCells_eq_map (grid : Grid) (dx : Int) (n : Nat) :
    ∀ (y : Nat) (x : Int),
      walkCells grid dx n y x =
        (walkPositions dx n y x).map (fun q => indexInt (grid.getD q.1 []) q.2) := by
  induction n with
  | zero => intro y x; rfl
  | succ n ih => intro y x; simp [walkCells, walkPositions, ih]

theorem indexInt_outside (row : List Cell) (x : Int)
    (h : x < 0 ∨ (row.length : Int) ≤ x) : indexInt row x = none := by
  unfold indexInt index
  by_cases hx : x < 0
  · simp [hx]
  · have : row.length ≤ x.toNat := by omega
    simp [hx, List.getD_eq_getElem?_getD, List.getElem?_eq_none_iff.2 this]

theorem checkWin_eq_of_head (grid : Grid) (row0 : List Cell) (h0 : grid[0]? = some row0) :
    checkWin grid =
      (forEachLine (rowLine grid) (List.range grid.length) <|
       forEachLine (columnLine grid) (List.range row0.length) <|
       forEachLine (descUpper grid row0.length) (List.range row0.length) <|
       forEachLine (descLower grid grid.length) (List.range row0.length) <|
       forEachLine (ascUpper grid row0.length) (List.range row0.length) <|
       forEachLine (ascLower grid grid.length row0.length) (List.range row0.length) <|
       some notWon) := by
  unfold checkWin
  simp only [h0]

/-- Rectangular or not, a grid with at least one row whose first row is no
longer than the number of rows makes `checkWin` return. -/
theorem checkWin_returns_of_head (grid : Grid) (row0 : List Cell)
    (h0 : grid[0]? = some row0) (hle : row0.length ≤ grid.length) :
    (checkWin grid).isSome = true := by
  rw [checkWin_eq_of_head grid row0 h0]
  refine forEachLine_isSome _ _ _ (fun i hi => rowLine_built grid i hi) ?_
  refine forEachLine_isSome _ _ _ (fun i _ => columnLine_built grid i) ?_
  refine forEachLine_isSome _ _ _ (fun i _ => ⟨_, descUpper_built grid _ i hle⟩) ?_
  refine forEachLine_isSome _ _ _ (fun i _ => ⟨_, descLower_built grid i⟩) ?_
  refine forEachLine_isSome _ _ _ (fun i _ => ⟨_, ascUpper_built grid _ i hle⟩) ?_
  exact forEachLine_isSome _ _ _ (fun i _ => ⟨_, ascLower_built grid _ i⟩) rfl

theorem jaggedGrid_jagged : Jagged jaggedGrid :=
  ⟨[some 0, some 0], by decide, [some 0], by decide, by decide⟩

theorem jaggedWinGrid_jagged : Jagged jaggedWinGrid :=
  ⟨[some 1, some 1, some 1, some 1], by decide, [some 0], by decide, by decide⟩

/-- C14, as stated, fails: `checkWin` does not reject a jagged grid.  On the
jagged grid `jaggedGrid` it returns NotWon and on the jagged grid
`jaggedWinGrid` it returns Won(gray). -/
theorem C14_counterexample :
    (Jagged jaggedGrid ∧ checkWin jaggedGrid = some notWon) ∧
      (Jagged jaggedWinGrid ∧ checkWin jaggedWinGrid = some (wonBy Winner.gray)) :=
  ⟨⟨jaggedGrid_jagged, by decide⟩, ⟨jaggedWinGrid_jagged, by decide⟩⟩

/-- C14, amended: `checkWin` makes no check of the shape of the grid.  For every
jagged grid with at least one row whose first row is no longer than the number
of rows, `checkWin` returns a Won or NotWon result instead of rejecting the
input; the cells it reads past the end of a shorter row are `undefined` and
match no player, and a Won result still names a player with a run of four. -/
theorem C14_jagged_returns (g : Grid) (row0 : List Cell) (_hj : Jagged g)
    (h0 : g[0]? = some row0) (hle : row0.length ≤ g.length) :
    ∃ w, checkWin g = some w ∧
      (w = notWon ∨ ∃ v, w = wonBy v ∧ HasRun g (playerValue v)) := by
  obtain ⟨w, hw⟩ := Option.isSome_iff_exists.1 (checkWin_returns_of_head g row0 h0 hle)
  refine ⟨w, hw, ?_⟩
  rcases checkWin_shape g w hw with h | ⟨v, hv⟩
  · exact Or.inl h
  · exact Or.inr (checkWin_sound g w hw (by rw [hv]; rfl))

/-- C14 amended, at the jagged grid of three rows. -/
theorem C14_jagged_returns_witness :
    Jagged jaggedGrid ∧ jaggedGrid[0]? = some [some 0, some 0] ∧
      [some (0 : Int), some 0].length ≤ jaggedGrid.length ∧
      ∃ w, checkWin jaggedGrid = some w ∧
        (w = notWon ∨ ∃ v, w = wonBy v ∧ HasRun jaggedGrid (playerValue v)) :=
  ⟨jaggedGrid_jagged, rfl, by decide,
    C14_jagged_returns jaggedGrid [some 0, some 0] jaggedGrid_jagged rfl (by decide)⟩

/-- C16: no diagonal is read twice.  For all dimensions `R` and `C`, a position
`(row, col)` read for two diagonals of the two descending families belongs to
one and the same diagonal, and likewise for the two ascending families; a
position `(k, k)` of the main diagonal is read only for the diagonal of the
upper descending family at offset 0. -/
theorem C16_no_diagonal_twice (R C : Nat) (d1 d2 : Diagonal) (q : Nat × Int) :
    (q ∈ descPositions R C d1 → q ∈ descPositions R C d2 → d1 = d2) ∧
      (q ∈ ascPositions R C d1 → q ∈ ascPositions R C d2 → d1 = d2) ∧
      (∀ k : Nat, (k, (k : Int)) ∈ descPositions R C d1 → d1 = Diagonal.upper 0) := by
  refine ⟨?_, ?_, ?_⟩
  · intro h1 h2
    cases d1 <;> cases d2 <;>
      simp only [descPositions, descUpperPositions, descLowerPositions,
        mem_walkPositions] at h1 h2 <;>
      obtain ⟨k1, _, rfl⟩ := h1 <;>
      obtain ⟨k2, _, he⟩ := h2 <;>
      simp only [Prod.mk.injEq] at he <;>
      (congr 1; omega)
  · intro h1 h2
    cases d1 <;> cases d2 <;>
      simp only [ascPositions, ascUpperPositions, ascLowerPositions,
        mem_walkPositions] at h1 h2 <;>
      obtain ⟨k1, _, rfl⟩ := h1 <;>
      obtain ⟨k2, _, he⟩ := h2 <;>
      simp only [Prod.mk.injEq] at he <;>
      (congr 1; omega)
  · intro k h
    cases d1 <;>
      simp only [descPositions, descUpperPositions, descLowerPositions,
        mem_walkPositions] at h <;>
      obtain ⟨k1, _, he⟩ := h <;>
      simp only [Prod.mk.injEq] at he <;>
      (congr 1; omega)

/-- C16, at the 7 x 6 dimensions: the position (1, 1) lies on the diagonal of the
upper descending family at offset 0 only. -/
theorem C16_no_diagonal_twice_witness :
    ((1, 1) : Nat × Int) ∈ descPositions 7 6 (Diagonal.upper 0) ∧
      ((4, 3) : Nat × Int) ∈ ascPositions 7 6 (Diagonal.lower 1) ∧
      Diagonal.upper 0 = Diagonal.upper 0 ∧ Diagonal.lower 1 = Diagonal.lower 1 :=
  ⟨by decide, by decide,
    (C16_no_diagonal_twice 7 6 (Diagonal.upper 0) (Diagonal.upper 0) (1, 1)).1
      (by decide) (by decide),
    (C16_no_diagonal_twice 7 6 (Diagonal.lower 1) (Diagonal.lower 1) (4, 3)).2.1
      (by decide) (by decide)⟩

/-- C18: on every rectangular grid with at least one row and at least as many
rows as columns, `checkWin` returns a result: every row index read in the four
diagonal families is smaller than `R`, so no missing row is dereferenced, and
a read past the end of an existing row (or before its start) yields
`undefined`, which matches no player. -/
theorem C18_rows_in_range (g : Grid) (R C : Nat) (hrect : Rect g R C) (hR : 0 < R)
    (hCR : C ≤ R) :
    (∃ w, checkWin g = some w) ∧
      (∀ i q, i < C →
        q ∈ descUpperPositions C i ∨ q ∈ descLowerPositions R i ∨
          q ∈ ascUpperPositions C i ∨ q ∈ ascLowerPositions R C i →
        q.1 < R) ∧
      (∀ (row : List Cell) (x : Int), x < 0 ∨ (row.length : Int) ≤ x →
        indexInt row x = none ∧ indexInt row x ≠ some 1 ∧ indexInt row x ≠ some 2) := by
  refine ⟨Option.isSome_iff_exists.1 (checkWin_returns g R C hrect hR hCR), ?_, ?_⟩
  · intro i q _ h
    simp only [descUpperPositions, descLowerPositions, ascUpperPositions,
      ascLowerPositions, mem_walkPositions] at h
    rcases h with ⟨k, hk, rfl⟩ | ⟨k, hk, rfl⟩ | ⟨k, hk, rfl⟩ | ⟨k, hk, rfl⟩ <;>
      simp only <;> omega
  · intro row x hx
    rw [indexInt_outside row x hx]
    simp

/-- C18, at the sample grid of the source. -/
theorem C18_rows_in_range_witness :
    Rect grid 7 6 ∧ 0 < 7 ∧ 6 ≤ 7 ∧ (∃ w, checkWin grid = some w) ∧
      ∀ q, q ∈ descLowerPositions 7 0 → q.1 < 7 :=
  ⟨grid_rect, by decide, by decide,
    (C18_rows_in_range grid 7 6 grid_rect (by decide) (by decide)).1,
    fun q hq => (C18_rows_in_range grid 7 6 grid_rect (by decide) (by decide)).2.1 0 q
      (by decide) (Or.inr (Or.inl hq))⟩

end PowerPlay
